import Mathlib

/-!
# Verification of the PCjs disk-image engine (`src/machines/pcx86/modules/diskimage.js`)

This file is a shallow embedding, in Lean 4, of the parts of the `DiskImage`
class that the specification's claims talk about, together with proofs (or
refutations) of those claims.

Modelling conventions, used throughout:

* A JS `DataBuffer` of bytes is a `List Nat` whose elements are < 256; a read
  beyond the end of the buffer yields 0 (the `DataBuffer` implementation is
  not part of this repository; no claim depends on out-of-range reads of a
  well-formed image, and every theorem that needs byte values carries an
  explicit bound hypothesis).  A write beyond the end of the buffer is a
  no-op (`List.set` semantics).
* JS 32-bit values are modelled by their unsigned representatives
  (`Nat` mod 2^32).  All operations the engine performs on sector data words
  (equality tests, `>>`/`&` byte extraction with a final `& 0xff`, and
  wrap-around addition `(a + b) & (0xffffffff|0)`) commute with the
  signed/unsigned bijection, so this is faithful.
* `printf` logging and `assert` calls have no effect on the data structures
  and are omitted.
* Reading a JS array element that is absent (`undefined`) is modelled as 0
  exactly where the source either guards with `=== undefined` or feeds the
  value through `>>`/`&`/`| 0`-style coercions that turn `undefined` into 0.
-/

namespace DiskImage

/-- `jsGet ab i` — reading element `i` of a JS byte/word array, 0 when absent. -/
def jsGet (ab : List Nat) (i : Nat) : Nat := ab.getD i 0

/-- `jsSet ab i v` — JS array element assignment `ab[i] = v`; assigning past the
end of the array first grows it (the intervening holes read as 0, see `jsGet`). -/
def jsSet (ab : List Nat) (i : Nat) (v : Nat) : List Nat :=
  if i < ab.length then ab.set i v
  else (ab ++ List.replicate (i + 1 - ab.length) 0).set i v

/-- `db.readUInt8(ib)` on a `DataBuffer`. -/
def readUInt8 (db : List Nat) (ib : Nat) : Nat := jsGet db ib

/-- `db.readUInt16LE(ib)` on a `DataBuffer`. -/
def readUInt16LE (db : List Nat) (ib : Nat) : Nat :=
  readUInt8 db ib + readUInt8 db (ib + 1) * 0x100

/-- `db.readUInt32LE(ib)` on a `DataBuffer`. -/
def readUInt32LE (db : List Nat) (ib : Nat) : Nat :=
  readUInt8 db ib + readUInt8 db (ib + 1) * 0x100 +
    readUInt8 db (ib + 2) * 0x10000 + readUInt8 db (ib + 3) * 0x1000000

/-- `db.readInt32LE(ib)`, as its unsigned 32-bit representative (see the
modelling conventions above). -/
def readInt32LE (db : List Nat) (ib : Nat) : Nat := readUInt32LE db ib

/-- `db.readInt32BE(ib)`, as its unsigned 32-bit representative. -/
def readInt32BE (db : List Nat) (ib : Nat) : Nat :=
  readUInt8 db (ib + 3) + readUInt8 db (ib + 2) * 0x100 +
    readUInt8 db (ib + 1) * 0x10000 + readUInt8 db ib * 0x1000000

/-- `db.writeUInt8(v, ib)`; a write past the end of the buffer is a no-op
(the `DataBuffer` implementation is outside this repository; no claim
exercises an out-of-range write on a well-formed image). -/
def writeUInt8 (db : List Nat) (v : Nat) (ib : Nat) : List Nat := db.set ib v

/-- Write the byte list `ab` into `db` starting at offset `off`
(consecutive `writeUInt8` calls). -/
def writeBytes (db : List Nat) (off : Nat) : List Nat → List Nat
  | [] => db
  | b :: bs => writeBytes (writeUInt8 db b off) (off + 1) bs

/-- A `Sector` object (see the `DiskImage.SECTOR` property table in the source):
`c`/`h` cylinder and head, `s` sector ID, `l` length in bytes, `d` the stored
32-bit data words (if fewer than `l/4`, the final word repeats).  `dataError`
is 0 when the property is absent.  `iModify`/`cModify` are the write-tracking
fields used on writable disks (0 until a write occurs, matching `initSector`). -/
structure Sector where
  c : Nat
  h : Nat
  s : Nat
  l : Nat
  d : List Nat
  dataError : Int := 0
  iModify : Nat := 0
  cModify : Nat := 0
deriving Repr, DecidableEq

/-- One step of the duplicate-run scan in `initSector`: the state is
`(dwPrev, cPrev)`, and each data word `dw` either extends the current run
(`dwPrev === dw`) or starts a new one. -/
def runStep (st : Option Nat × Nat) (dw : Nat) : Option Nat × Nat :=
  if st.1 = some dw then (st.1, st.2 + 1) else (some dw, 0)

/-- The value of `cPrev` after `initSector`'s scan of the word list `adw`. -/
def cPrevOf (adw : List Nat) : Nat := (adw.foldl runStep (none, 0)).2

/-- `initSector(sector, adw, cbSector, dwPattern)` — the sector-codec
normalisation step.  The loop fills any missing entries of `adw` up to
`cbSector >> 2` words (with `dwPattern` when given, otherwise with the last
stored word, whose value propagates), counts the trailing duplicate run, and
shrinks the array by `cPrev` (`adw.length -= cPrev`).  The model assumes
`adw` is non-empty or `dwPattern` is given when a fill is needed (the source
asserts exactly this). -/
def initSectorData (adw : List Nat) (cbSector : Nat) (dwPattern : Option Nat) : List Nat :=
  let cdw := cbSector >>> 2
  let pat := match dwPattern with
    | some p => p
    | none => adw.getLastD 0
  let adwF := if cdw ≤ adw.length then adw
    else adw ++ List.replicate (cdw - adw.length) pat
  adwF.take (adwF.length - cPrevOf (adwF.take cdw))

/-- The per-sector checksum contribution computed by `initSector`: the 32-bit
wrap-around sum of the data words with index `< cdw`, where
`cdw = adw.length - 1` if `adw.length < cbSector >> 2` else `adw.length`
(for a less-than-full sector the final repeated word is excluded). -/
def initSectorChecksum (adw : List Nat) (cbSector : Nat) : Nat :=
  let cdw := if adw.length < cbSector >>> 2 then adw.length - 1 else adw.length
  (adw.take cdw).foldl (fun acc dw => (acc + dw) % 2 ^ 32) 0

/-- `buildSector(iCylinder, iHead, idSector, cbSector, db, ib)` — reads
`cbSector >> 2` little-endian 32-bit words from the buffer (0 once `ib`
passes the end of the buffer) and normalises them through `initSector`
with `dwPattern = 0`. -/
def buildSector (iCylinder iHead idSector cbSector : Nat) (db : List Nat) (ib : Nat) : Sector :=
  let adw := (List.range (cbSector >>> 2)).map
    (fun idw => if ib + 4 * idw < db.length then readInt32LE db (ib + 4 * idw) else 0)
  { c := iCylinder, h := iHead, s := idSector, l := cbSector,
    d := initSectorData adw cbSector (some 0) }

/-- `read(sector, iByte)` — returns the unsigned byte at `iByte`, or `-1` when
`iByte` is at or past the sector's length.  The data word is
`adw[iByte >> 2]`, falling back to the last stored word (0 for an absent
element, matching the JS `undefined` coercion under `>> .. & 0xff`). -/
def read (sector : Sector) (iByte : Nat) : Int :=
  if iByte < sector.l then
    let adw := sector.d
    let idw := iByte >>> 2
    let dw := if idw < adw.length then jsGet adw idw else jsGet adw (adw.length - 1)
    Int.ofNat ((dw >>> ((iByte &&& 0x3) <<< 3)) &&& 0xff)
  else
    -1

/-- The byte stream a sector contributes to `getData`: every byte index in
`[0, l)` passed through `read` (the source asserts the result is ≥ 0 and
stores it with `writeUInt8`). -/
def sectorBytes (s : Sector) : List Nat :=
  (List.range s.l).map (fun i => (read s i).toNat)

/-! ### Helper lemmas about `jsGet` and the duplicate-run truncation -/

theorem jsGet_eq_getElem {l : List Nat} {i : Nat} (h : i < l.length) : jsGet l i = l[i] :=
  List.getD_eq_getElem l 0 h

theorem jsGet_eq_zero {l : List Nat} {i : Nat} (h : l.length ≤ i) : jsGet l i = 0 :=
  List.getD_eq_default l 0 h

theorem jsGet_lt_of_forall_lt {l : List Nat} {i b : Nat} (hb : ∀ x ∈ l, x < b) (h0 : 0 < b) :
    jsGet l i < b := by
  by_cases h : i < l.length
  · rw [jsGet_eq_getElem h]; exact hb _ (List.getElem_mem h)
  · rw [jsGet_eq_zero (Nat.le_of_not_lt h)]; exact h0

/-- The duplicate-run truncation performed by `initSector` on a word array it
has fully visited: `adw.take (adw.length - cPrev)`. -/
def truncRun (l : List Nat) : List Nat := l.take (l.length - cPrevOf l)

theorem foldl_runStep_fst (l : List Nat) (hl : l ≠ []) (st : Option Nat × Nat) :
    (l.foldl runStep st).1 = some (l.getLast hl) := by
  induction l using List.reverseRecOn with
  | nil => exact absurd rfl hl
  | append_singleton l a _ =>
    rw [List.foldl_append]
    simp only [List.foldl_cons, List.foldl_nil, List.getLast_concat]
    unfold runStep
    split
    · next hcond => exact hcond
    · rfl

theorem runStep_snd (st : Option Nat × Nat) (a : Nat) :
    (runStep st a).2 = if st.1 = some a then st.2 + 1 else 0 := by
  unfold runStep
  split
  · rfl
  · rfl

theorem cPrevOf_concat (l : List Nat) (hl : l ≠ []) (a : Nat) :
    cPrevOf (l ++ [a]) = if l.getLast hl = a then cPrevOf l + 1 else 0 := by
  unfold cPrevOf
  rw [List.foldl_append]
  simp only [List.foldl_cons, List.foldl_nil]
  rw [runStep_snd, foldl_runStep_fst l hl]
  by_cases h : l.getLast hl = a
  · rw [if_pos h, if_pos (by rw [h])]
  · rw [if_neg h, if_neg (by simpa using h)]

theorem truncRun_length (l : List Nat) : (truncRun l).length = l.length - cPrevOf l := by
  unfold truncRun
  rw [List.length_take]
  omega

/-- The two facts `initSector`'s truncation provides: the scan's final run
count is less than the array length (so the truncated array is non-empty),
and reading any index of the original array through the truncated array
(falling back to its last entry) recovers the original value — i.e. the
truncation loses no information. -/
theorem truncRun_spec (l : List Nat) :
    (l ≠ [] → cPrevOf l < l.length) ∧
    ∀ i, i < l.length →
      jsGet l i = (if i < (truncRun l).length then jsGet (truncRun l) i
                   else jsGet (truncRun l) ((truncRun l).length - 1)) := by
  induction l using List.reverseRecOn with
  | nil => exact ⟨fun h => absurd rfl h, fun i hi => absurd hi (by simp)⟩
  | append_singleton l a ih =>
    rcases eq_or_ne l [] with rfl | hl
    · refine ⟨fun _ => ?_, fun i hi => ?_⟩
      · simp [cPrevOf, runStep]
      · simp only [List.nil_append, List.length_singleton] at hi
        interval_cases i
        simp [truncRun, cPrevOf, runStep, jsGet]
    · obtain ⟨ih1, ih2⟩ := ih
      have hcl := ih1 hl
      have hconc := cPrevOf_concat l hl a
      have hlenc : (l ++ [a]).length = l.length + 1 := by simp
      by_cases hla : l.getLast hl = a
      · rw [if_pos hla] at hconc
        have hk : (l ++ [a]).length - cPrevOf (l ++ [a]) = l.length - cPrevOf l := by
          rw [hlenc, hconc]; omega
        have htr : truncRun (l ++ [a]) = truncRun l := by
          unfold truncRun
          rw [hk, List.take_append_of_le_length (by omega)]
        have hlt : (truncRun l).length = l.length - cPrevOf l := truncRun_length l
        refine ⟨fun _ => ?_, fun i hi => ?_⟩
        · rw [hlenc, hconc]; omega
        · rw [hlenc] at hi
          rw [htr]
          rcases Nat.lt_or_ge i l.length with hil | hil
          · have hgl : jsGet (l ++ [a]) i = jsGet l i := List.getD_append l [a] 0 i hil
            rw [hgl]
            exact ih2 i hil
          · have hieq : i = l.length := by omega
            subst hieq
            have hgl : jsGet (l ++ [a]) l.length = a := by
              unfold jsGet
              rw [List.getD_append_right l [a] 0 l.length (Nat.le_refl _)]
              simp
            rw [hgl]
            have hlast : jsGet l (l.length - 1) = a := by
              rw [jsGet_eq_getElem (by omega : l.length - 1 < l.length)]
              rw [List.getLast_eq_getElem] at hla
              exact hla
            have hstep := ih2 (l.length - 1) (by omega)
            rw [hlast] at hstep
            rw [if_neg (by omega)]
            by_cases hc : l.length - 1 < (truncRun l).length
            · rw [if_pos hc] at hstep
              have : (truncRun l).length - 1 = l.length - 1 := by omega
              rw [this]
              exact hstep
            · rw [if_neg hc] at hstep
              exact hstep
      · rw [if_neg hla] at hconc
        have htr : truncRun (l ++ [a]) = l ++ [a] := by
          unfold truncRun
          rw [hconc, Nat.sub_zero, List.take_length]
        refine ⟨fun _ => ?_, fun i hi => ?_⟩
        · rw [hlenc, hconc]; omega
        · rw [htr, if_pos hi]

theorem truncRun_ne_nil {l : List Nat} (hl : l ≠ []) : truncRun l ≠ [] := by
  have h1 := (truncRun_spec l).1 hl
  have h2 := truncRun_length l
  intro hcon
  rw [hcon] at h2
  simp at h2
  omega

theorem truncRun_length_le (l : List Nat) : (truncRun l).length ≤ l.length := by
  rw [truncRun_length]; omega

/-- In the `buildSector` direction (a word array of exactly `cbSector >> 2`
entries, no padding needed) `initSector`'s data normalisation is exactly the
duplicate-run truncation. -/
theorem initSectorData_eq_truncRun (adw : List Nat) (cb : Nat) (p : Option Nat)
    (h : adw.length = cb >>> 2) : initSectorData adw cb p = truncRun adw := by
  unfold initSectorData truncRun
  dsimp only
  rw [if_pos (Nat.le_of_eq h.symm), ← h, List.take_length]

/-! ### Little-endian 32-bit packing and byte extraction -/

theorem and_0xff_eq_mod (x : Nat) : x &&& 0xff = x % 256 := by
  have : (0xff : Nat) = 2 ^ 8 - 1 := rfl
  rw [this, Nat.and_pow_two_sub_one_eq_mod]

theorem and_0x3_eq_mod (x : Nat) : x &&& 0x3 = x % 4 := by
  have : (0x3 : Nat) = 2 ^ 2 - 1 := rfl
  rw [this, Nat.and_pow_two_sub_one_eq_mod]

/-- Extracting byte `r` of a packed little-endian 32-bit word recovers the
original buffer byte (`(dw >> (r*8)) & 0xff` in the source's `read`). -/
theorem readInt32LE_byte (db : List Nat) (hb : ∀ x ∈ db, x < 256) (ib r : Nat) (hr : r < 4) :
    (readInt32LE db ib >>> (r * 8)) &&& 0xff = jsGet db (ib + r) := by
  have h0 : jsGet db ib < 256 := jsGet_lt_of_forall_lt hb (by omega)
  have h1 : jsGet db (ib + 1) < 256 := jsGet_lt_of_forall_lt hb (by omega)
  have h2 : jsGet db (ib + 2) < 256 := jsGet_lt_of_forall_lt hb (by omega)
  have h3 : jsGet db (ib + 3) < 256 := jsGet_lt_of_forall_lt hb (by omega)
  rw [and_0xff_eq_mod, Nat.shiftRight_eq_div_pow]
  unfold readInt32LE readUInt32LE readUInt8
  interval_cases r
  · have : 2 ^ (0 * 8) = 1 := rfl
    rw [this, Nat.div_one]
    have hrw : jsGet db ib + jsGet db (ib + 1) * 0x100 + jsGet db (ib + 2) * 0x10000 +
        jsGet db (ib + 3) * 0x1000000 =
        jsGet db ib + 256 * (jsGet db (ib + 1) + jsGet db (ib + 2) * 0x100 +
          jsGet db (ib + 3) * 0x10000) := by ring
    rw [hrw, Nat.add_mul_mod_self_left, Nat.mod_eq_of_lt h0, Nat.add_zero]
  · have : 2 ^ (1 * 8) = 256 := rfl
    rw [this]
    have hrw : jsGet db ib + jsGet db (ib + 1) * 0x100 + jsGet db (ib + 2) * 0x10000 +
        jsGet db (ib + 3) * 0x1000000 =
        jsGet db ib + 256 * (jsGet db (ib + 1) + 256 * (jsGet db (ib + 2) +
          jsGet db (ib + 3) * 0x100)) := by ring
    rw [hrw, Nat.add_mul_div_left _ _ (by omega : (0:Nat) < 256),
      Nat.div_eq_of_lt h0, Nat.zero_add, Nat.add_mul_mod_self_left,
      Nat.mod_eq_of_lt h1]
  · have : 2 ^ (2 * 8) = 65536 := rfl
    rw [this]
    have hrw : jsGet db ib + jsGet db (ib + 1) * 0x100 + jsGet db (ib + 2) * 0x10000 +
        jsGet db (ib + 3) * 0x1000000 =
        (jsGet db ib + jsGet db (ib + 1) * 0x100) + 65536 * (jsGet db (ib + 2) +
          256 * jsGet db (ib + 3)) := by ring
    rw [hrw, Nat.add_mul_div_left _ _ (by omega : (0:Nat) < 65536),
      Nat.div_eq_of_lt (by omega), Nat.zero_add, Nat.add_mul_mod_self_left,
      Nat.mod_eq_of_lt h2]
  · have : 2 ^ (3 * 8) = 16777216 := rfl
    rw [this]
    have hrw : jsGet db ib + jsGet db (ib + 1) * 0x100 + jsGet db (ib + 2) * 0x10000 +
        jsGet db (ib + 3) * 0x1000000 =
        (jsGet db ib + jsGet db (ib + 1) * 0x100 + jsGet db (ib + 2) * 0x10000) +
          16777216 * jsGet db (ib + 3) := by ring
    rw [hrw, Nat.add_mul_div_left _ _ (by omega : (0:Nat) < 16777216),
      Nat.div_eq_of_lt (by omega), Nat.zero_add, Nat.mod_eq_of_lt h3]

theorem buildSector_l (c h id cb : Nat) (db : List Nat) (ib : Nat) :
    (buildSector c h id cb db ib).l = cb := rfl

theorem buildSector_d (c h id cb : Nat) (db : List Nat) (ib : Nat) :
    (buildSector c h id cb db ib).d =
      initSectorData ((List.range (cb >>> 2)).map
        (fun idw => if ib + 4 * idw < db.length then readInt32LE db (ib + 4 * idw) else 0))
        cb (some 0) := rfl

/-- Decoding a sector built by `buildSector` recovers the source buffer byte:
for `i < cbSector` (with `cbSector` a multiple of 4, as all sector sizes the
engine uses are), `read` returns byte `ib + i` of the buffer, or 0 past the
end of the buffer. -/
theorem read_buildSector (db : List Nat) (hb : ∀ x ∈ db, x < 256)
    (c h id cb ib i : Nat) (h4 : 4 ∣ cb) (hi : i < cb) :
    read (buildSector c h id cb db ib) i = Int.ofNat (jsGet db (ib + i)) := by
  obtain ⟨q, hq⟩ := h4
  have hcdw : cb >>> 2 = q := by
    rw [Nat.shiftRight_eq_div_pow]
    omega
  have hi4 : i >>> 2 = i / 4 := by
    rw [Nat.shiftRight_eq_div_pow]
  have hlenF : ((List.range (cb >>> 2)).map
      (fun idw => if ib + 4 * idw < db.length then readInt32LE db (ib + 4 * idw) else 0)).length
      = q := by
    rw [List.length_map, List.length_range, hcdw]
  have hidwlt : i >>> 2 < ((List.range (cb >>> 2)).map
      (fun idw => if ib + 4 * idw < db.length then readInt32LE db (ib + 4 * idw) else 0)).length := by
    rw [hlenF, hi4]
    omega
  have hword : jsGet ((List.range (cb >>> 2)).map
      (fun idw => if ib + 4 * idw < db.length then readInt32LE db (ib + 4 * idw) else 0)) (i >>> 2)
      = (if ib + 4 * (i >>> 2) < db.length then readInt32LE db (ib + 4 * (i >>> 2)) else 0) := by
    rw [jsGet_eq_getElem hidwlt]
    simp
  unfold read
  rw [if_pos (show i < (buildSector c h id cb db ib).l by rw [buildSector_l]; exact hi)]
  dsimp only
  rw [buildSector_d,
    initSectorData_eq_truncRun _ _ _ (by rw [hlenF, hcdw]),
    ((truncRun_spec _).2 (i >>> 2) hidwlt).symm, hword]
  have hand : i &&& 0x3 = i % 4 := and_0x3_eq_mod i
  have hshl : (i % 4) <<< 3 = i % 4 * 8 := by
    rw [Nat.shiftLeft_eq]
  rw [hand, hshl]
  by_cases hin : ib + 4 * (i >>> 2) < db.length
  · rw [if_pos hin]
    rw [readInt32LE_byte db hb (ib + 4 * (i >>> 2)) (i % 4) (by omega)]
    have : ib + 4 * (i >>> 2) + i % 4 = ib + i := by
      rw [hi4]
      omega
    rw [this]
  · rw [if_neg hin]
    rw [Nat.zero_shiftRight, Nat.zero_and]
    rw [jsGet_eq_zero (by rw [hi4] at hin; omega)]

/-- The byte stream `getData` extracts from a sector built out of a buffer
slice of exactly the sector's size is that slice itself. -/
theorem sectorBytes_buildSector (db : List Nat) (hb : ∀ x ∈ db, x < 256)
    (c h id cb : Nat) (h4 : 4 ∣ cb) (hlen : db.length = cb) :
    sectorBytes (buildSector c h id cb db 0) = db := by
  unfold sectorBytes
  apply List.ext_getElem
  · rw [List.length_map, List.length_range, buildSector_l, hlen]
  · intro n h1 h2
    simp only [List.getElem_map, List.getElem_range]
    have hn : n < cb := by
      rw [List.length_map, List.length_range, buildSector_l] at h1
      exact h1
    rw [read_buildSector db hb c h id cb 0 n h4 hn]
    have htn : (Int.ofNat (jsGet db (0 + n))).toNat = jsGet db (0 + n) := rfl
    rw [htn, Nat.zero_add, jsGet_eq_getElem (by omega)]

/-- `rebuildSector(iCylinder, iHead, sector)` restricted to its data
normalisation: after the key migration (which only renames fields), the
sector's word array is put through `initSector` with the legacy `pattern`
value (absent for canonical-key sectors). -/
def rebuildSector (iCylinder iHead idSector cbSector : Nat) (adw : List Nat)
    (dwPattern : Option Nat) : Sector :=
  { c := iCylinder, h := iHead, s := idSector, l := cbSector,
    d := initSectorData adw cbSector dwPattern }

/-! ### Claim C2 — `read` decodes the compressed word array -/

/-- **C2 (confirmed).**  For every sector and byte index `i`: `read` returns
`-1` when `i ≥ l`, and otherwise the unsigned byte obtained by indexing the
data word array at `⌊i/4⌋` (clamped to the last stored word when `⌊i/4⌋` is
at or past the stored array's end) shifted right by `(i mod 4)·8` and masked
to 8 bits. -/
theorem claim_C2_read (s : Sector) (iByte : Nat) :
    (s.l ≤ iByte → read s iByte = -1) ∧
    (iByte < s.l →
      read s iByte = Int.ofNat
        ((jsGet s.d (min (iByte / 4) (s.d.length - 1)) / 2 ^ (iByte % 4 * 8)) % 256)) := by
  constructor
  · intro hge
    unfold read
    rw [if_neg (Nat.not_lt_of_le hge)]
  · intro hlt
    unfold read
    rw [if_pos hlt]
    dsimp only
    have h2 : iByte >>> 2 = iByte / 4 := by rw [Nat.shiftRight_eq_div_pow]
    have hand : iByte &&& 0x3 = iByte % 4 := and_0x3_eq_mod iByte
    have hshl : (iByte % 4) <<< 3 = iByte % 4 * 8 := by rw [Nat.shiftLeft_eq]
    rw [h2, hand, hshl, and_0xff_eq_mod, Nat.shiftRight_eq_div_pow]
    by_cases hc : iByte / 4 < s.d.length
    · rw [if_pos hc, Nat.min_eq_left (by omega)]
    · rw [if_neg hc, Nat.min_eq_right (by omega)]

/-- Witness for C2 at a concrete sector (length 4, one stored word
`0x44332211`): reading past the length yields `-1`, and reading byte 1
yields the decoded byte. -/
theorem claim_C2_read_witness :
    read { c := 0, h := 0, s := 1, l := 4, d := [0x44332211] } 9 = -1 ∧
    read { c := 0, h := 0, s := 1, l := 4, d := [0x44332211] } 1 = Int.ofNat
      ((jsGet [0x44332211] (min (1 / 4) ([0x44332211].length - 1)) / 2 ^ (1 % 4 * 8)) % 256) :=
  ⟨(claim_C2_read { c := 0, h := 0, s := 1, l := 4, d := [0x44332211] } 9).1 (by norm_num),
   (claim_C2_read { c := 0, h := 0, s := 1, l := 4, d := [0x44332211] } 1).2 (by norm_num)⟩

/-! ### Claim C3 — invariants of sectors produced by `buildSector`/`rebuildSector` -/

/-- **C3 (counterexample).**  The claim asserts `data.length ≤ length/4` for
every sector produced via `initSector`.  A sector rebuilt from a (malformed)
JSON word array that is longer than `length/4` keeps the excess words:
`rebuildSector` with `length = 4` and `data = [1, 2]` produces a sector
whose stored array still has 2 entries, yet `length/4 = 1`. -/
theorem claim_C3_counterexample :
    (rebuildSector 0 0 1 4 [1, 2] none).d.length = 2 ∧
    ¬((rebuildSector 0 0 1 4 [1, 2] none).d.length ≤ (rebuildSector 0 0 1 4 [1, 2] none).l / 4) := by
  constructor
  · rfl
  · decide

/-- **C3 (amended).**  For every sector produced by `buildSector` (whose word
array has exactly `length/4` entries before truncation, as the claim's
invariants presuppose) with a length divisible by 4: the stored array has at
most `length/4` entries; it is non-empty whenever `length > 0`; and repeating
its last stored word out to `length/4` words reconstructs exactly the
`length` bytes of the original content (expressed byte-wise through `read`). -/
theorem claim_C3_sector_invariants (c h id cb : Nat) (db : List Nat) (ib : Nat)
    (hb : ∀ x ∈ db, x < 256) (h4 : 4 ∣ cb) :
    (buildSector c h id cb db ib).d.length ≤ cb / 4 ∧
    (0 < cb → (buildSector c h id cb db ib).d ≠ []) ∧
    (∀ i, i < cb → read (buildSector c h id cb db ib) i = Int.ofNat (jsGet db (ib + i))) := by
  obtain ⟨q, hq⟩ := h4
  have hcdw : cb >>> 2 = q := by
    rw [Nat.shiftRight_eq_div_pow]
    omega
  have hlenF : ((List.range (cb >>> 2)).map
      (fun idw => if ib + 4 * idw < db.length then readInt32LE db (ib + 4 * idw) else 0)).length
      = q := by
    rw [List.length_map, List.length_range, hcdw]
  have hd : (buildSector c h id cb db ib).d = truncRun ((List.range (cb >>> 2)).map
      (fun idw => if ib + 4 * idw < db.length then readInt32LE db (ib + 4 * idw) else 0)) := by
    rw [buildSector_d]
    exact initSectorData_eq_truncRun _ _ _ (by rw [hlenF, hcdw])
  refine ⟨?_, ?_, ?_⟩
  · rw [hd]
    have := truncRun_length_le ((List.range (cb >>> 2)).map
      (fun idw => if ib + 4 * idw < db.length then readInt32LE db (ib + 4 * idw) else 0))
    rw [hlenF] at this
    omega
  · intro hcb
    rw [hd]
    apply truncRun_ne_nil
    intro hnil
    have := congrArg List.length hnil
    rw [hlenF] at this
    simp at this
    omega
  · intro i hi
    exact read_buildSector db hb c h id cb ib i ⟨q, hq⟩ hi

/-- Witness for the amended C3 at a concrete 8-byte sector built from the
buffer `[1,2,3,4,5,6,7,8]`. -/
theorem claim_C3_sector_invariants_witness :
    (buildSector 0 0 1 8 [1, 2, 3, 4, 5, 6, 7, 8] 0).d.length ≤ 8 / 4 ∧
    (0 < 8 → (buildSector 0 0 1 8 [1, 2, 3, 4, 5, 6, 7, 8] 0).d ≠ []) ∧
    (∀ i, i < 8 → read (buildSector 0 0 1 8 [1, 2, 3, 4, 5, 6, 7, 8] 0) i =
      Int.ofNat (jsGet [1, 2, 3, 4, 5, 6, 7, 8] (0 + i))) :=
  claim_C3_sector_invariants 0 0 1 8 [1, 2, 3, 4, 5, 6, 7, 8] 0 (by decide) (by decide)

/-! ### Claim C6 — `write` and the `iModify`/`cModify` tracking -/

/-- `write(sector, iByte, b)` — returns `some false` when the disk is not
writable, `none` (the source's `null`) when `iByte` is out of bounds, and
otherwise `some true` together with the updated sector.  When the written
byte differs from the current one the word array is grown up to the target
word with the current repeat pattern (`adw[adw.length-1]`), the modification
range `iModify`/`cModify` is updated, and the target byte is replaced inside
its word (`adw[idw] & ~(0xff << nShift) | (b << nShift)`, on unsigned
32-bit representatives). -/
def write (fWritable : Bool) (sector : Sector) (iByte b : Nat) : Option Bool × Sector :=
  if !fWritable then (some false, sector)
  else if iByte < sector.l then
    if (b : Int) ≠ read sector iByte then
      let adw := sector.d
      let dwPattern := jsGet adw (adw.length - 1)
      let idw := iByte >>> 2
      let nShift := (iByte &&& 0x3) <<< 3
      let adw1 := if idw < adw.length then adw
        else adw ++ List.replicate (idw + 1 - adw.length) dwPattern
      let im := if sector.cModify = 0 then (idw, 1)
        else if idw < sector.iModify then (idw, sector.cModify + (sector.iModify - idw))
        else if sector.iModify + sector.cModify ≤ idw then
          (sector.iModify, sector.cModify + (idw - (sector.iModify + sector.cModify)) + 1)
        else (sector.iModify, sector.cModify)
      let adw2 := adw1.set idw
        ((jsGet adw1 idw &&& (0xffffffff ^^^ (0xff <<< nShift))) ||| (b <<< nShift))
      (some true, { sector with d := adw2, iModify := im.1, cModify := im.2 })
    else (some true, sector)
  else (none, sector)

/-- Replacing byte `r` of a 32-bit word (`w & ~(0xff << r*8) | (b << r*8)`)
and reading that byte back yields `b`. -/
theorem maskedUpdate_byte (w b r : Nat) (hb : b < 256) (hr : r < 4) :
    (((w &&& (0xffffffff ^^^ (0xff <<< (r * 8)))) ||| (b <<< (r * 8))) >>> (r * 8)) &&& 0xff
      = b := by
  have hm32 : (0xffffffff : Nat) = 2 ^ 32 - 1 := rfl
  have hm8 : (0xff : Nat) = 2 ^ 8 - 1 := rfl
  apply Nat.eq_of_testBit_eq
  intro i
  rw [hm32, hm8]
  simp only [Nat.testBit_and, Nat.testBit_or, Nat.testBit_xor, Nat.testBit_shiftLeft,
    Nat.testBit_shiftRight, Nat.testBit_two_pow_sub_one]
  by_cases hi : i < 8
  · have h1 : r * 8 + i < 32 := by omega
    have h2 : r * 8 ≤ r * 8 + i := by omega
    have h3 : r * 8 + i - r * 8 = i := by omega
    simp [h1, h2, h3, hi]
  · have h256 : (256 : Nat) = 2 ^ 8 := rfl
    have hble : b < 2 ^ i := by
      rw [h256] at hb
      exact Nat.lt_of_lt_of_le hb (Nat.pow_le_pow_right (by omega) (by omega))
    have hbz : b.testBit i = false := Nat.testBit_lt_two_pow hble
    simp [hi, hbz]

/-- Length of the grown word array (`for (let i = adw.length; i <= idw; i++)
adw[i] = dwPattern`). -/
theorem growPattern_length (adw : List Nat) (idw : Nat) (pat : Nat) :
    (if idw < adw.length then adw
     else adw ++ List.replicate (idw + 1 - adw.length) pat).length
    = max adw.length (idw + 1) := by
  by_cases hc : idw < adw.length
  · rw [if_pos hc]
    omega
  · rw [if_neg hc]
    simp
    omega

/-- Reading the grown word array: inside the original array the value is
unchanged, the padding reads as the repeat pattern, and past the end the
JS-hole default applies. -/
theorem growPattern_jsGet (adw : List Nat) (idw j : Nat) :
    jsGet (if idw < adw.length then adw
           else adw ++ List.replicate (idw + 1 - adw.length) (jsGet adw (adw.length - 1))) j
    = if j < adw.length ∨ max adw.length (idw + 1) ≤ j then jsGet adw j
      else jsGet adw (adw.length - 1) := by
  by_cases hc : idw < adw.length
  · rw [if_pos hc, if_pos (by omega)]
  · rw [if_neg hc]
    by_cases hj : j < adw.length
    · rw [if_pos (Or.inl hj)]
      exact List.getD_append _ _ _ _ hj
    · by_cases hj2 : j < max adw.length (idw + 1)
      · rw [if_neg (by omega)]
        unfold jsGet
        rw [List.getD_append_right _ _ _ _ (by omega),
          List.getD_eq_getElem _ _ (by simp; omega), List.getElem_replicate]
      · rw [if_pos (Or.inr (by omega))]
        unfold jsGet
        rw [List.getD_eq_default _ _ (by simp; omega), List.getD_eq_default _ _ (by omega)]

theorem jsGet_set_ne (l : List Nat) (i j w : Nat) (hne : i ≠ j) :
    jsGet (l.set i w) j = jsGet l j := by
  by_cases hj : j < l.length
  · rw [jsGet_eq_getElem (show j < (l.set i w).length by simpa using hj), jsGet_eq_getElem hj]
    exact List.getElem_set_ne hne _
  · rw [jsGet_eq_zero (show (l.set i w).length ≤ j by simpa using Nat.le_of_not_lt hj),
      jsGet_eq_zero (Nat.le_of_not_lt hj)]

theorem jsGet_set_self (l : List Nat) (i w : Nat) :
    jsGet (l.set i w) i = if i < l.length then w else jsGet l i := by
  by_cases hi : i < l.length
  · rw [if_pos hi, jsGet_eq_getElem (show i < (l.set i w).length by simpa using hi)]
    exact List.getElem_set_self _
  · rw [if_neg hi, List.set_eq_of_length_le (Nat.le_of_not_lt hi)]

/-- **C6 (confirmed).**  General part: on a writable disk, writing a byte that
differs from the current byte answers `some true`, grows the data array
exactly up to the target word index (filling with the current repeat
pattern), leaves every other word's decompressed value unchanged, makes the
written byte read back as `b`, and updates `iModify`/`cModify` to the minimal
contiguous word range covering the previous range and the newly touched word.
Concrete part (the claim's scenario): on an all-zero 512-byte sector, writing
`0x41` at byte 100 gives `iModify = 25`, `cModify = 1`, and a subsequent
write of `0x42` at byte 50 gives `iModify = 12`, `cModify = 14`. -/
theorem claim_C6_write :
    (∀ (s : Sector) (iByte b : Nat), iByte < s.l → (b : Int) ≠ read s iByte → b < 256 →
      (write true s iByte b).1 = some true ∧
      (write true s iByte b).2.d.length = max s.d.length (iByte / 4 + 1) ∧
      (∀ j, j ≠ iByte / 4 →
        jsGet (write true s iByte b).2.d j =
          (if j < s.d.length ∨ max s.d.length (iByte / 4 + 1) ≤ j then jsGet s.d j
           else jsGet s.d (s.d.length - 1))) ∧
      read (write true s iByte b).2 iByte = Int.ofNat b ∧
      ((s.cModify = 0 →
          (write true s iByte b).2.iModify = iByte / 4 ∧ (write true s iByte b).2.cModify = 1) ∧
       (s.cModify ≠ 0 →
          (write true s iByte b).2.iModify = min s.iModify (iByte / 4) ∧
          (write true s iByte b).2.iModify + (write true s iByte b).2.cModify =
            max (s.iModify + s.cModify) (iByte / 4 + 1)))) ∧
    ((write true (write true { c := 0, h := 0, s := 1, l := 512, d := [0] } 100 0x41).2
        50 0x42).2.iModify = 12 ∧
     (write true (write true { c := 0, h := 0, s := 1, l := 512, d := [0] } 100 0x41).2
        50 0x42).2.cModify = 14 ∧
     (write true { c := 0, h := 0, s := 1, l := 512, d := [0] } 100 0x41).2.iModify = 25 ∧
     (write true { c := 0, h := 0, s := 1, l := 512, d := [0] } 100 0x41).2.cModify = 1) := by
  constructor
  · intro s iByte b hl hneq hb
    have hi4 : iByte >>> 2 = iByte / 4 := by rw [Nat.shiftRight_eq_div_pow]
    unfold write
    rw [Bool.not_true, if_neg (by simp), if_pos hl, if_pos hneq]
    dsimp only
    rw [hi4]
    have hlen1 := growPattern_length s.d (iByte / 4) (jsGet s.d (s.d.length - 1))
    have hget1 := growPattern_jsGet s.d (iByte / 4)
    refine ⟨rfl, ?_, ?_, ?_, ?_⟩
    · rw [List.length_set, hlen1]
    · intro j hj
      rw [jsGet_set_ne _ _ _ _ (by omega)]
      exact hget1 j
    · unfold read
      dsimp only
      rw [if_pos hl, hi4]
      rw [List.length_set, hlen1]
      rw [if_pos (show iByte / 4 < max s.d.length (iByte / 4 + 1) by omega)]
      rw [jsGet_set_self, hlen1]
      rw [if_pos (show iByte / 4 < max s.d.length (iByte / 4 + 1) by omega)]
      have hsh : (iByte &&& 0x3) <<< 3 = iByte % 4 * 8 := by
        rw [and_0x3_eq_mod, Nat.shiftLeft_eq]
      rw [hsh, maskedUpdate_byte _ b (iByte % 4) hb (by omega)]
    · constructor
      · intro hc0
        rw [if_pos hc0]
        exact ⟨rfl, rfl⟩
      · intro hc0
        rw [if_neg hc0]
        by_cases h1 : iByte / 4 < s.iModify
        · rw [if_pos h1]
          exact ⟨by dsimp only; omega, by dsimp only; omega⟩
        · rw [if_neg h1]
          by_cases h2 : s.iModify + s.cModify ≤ iByte / 4
          · rw [if_pos h2]
            exact ⟨by dsimp only; omega, by dsimp only; omega⟩
          · rw [if_neg h2]
            exact ⟨by dsimp only; omega, by dsimp only; omega⟩
  · decide

/-- Witness for the general part of C6: writing `0x41` at byte offset 100 of
the all-zero 512-byte sector satisfies every conclusion. -/
theorem claim_C6_write_witness :
    (write true { c := 0, h := 0, s := 1, l := 512, d := [0] } 100 0x41).1 = some true ∧
    (write true { c := 0, h := 0, s := 1, l := 512, d := [0] } 100 0x41).2.d.length =
      max [0].length (100 / 4 + 1) ∧
    (∀ j, j ≠ 100 / 4 →
      jsGet (write true { c := 0, h := 0, s := 1, l := 512, d := [0] } 100 0x41).2.d j =
        (if j < [0].length ∨ max [0].length (100 / 4 + 1) ≤ j
         then jsGet [0] j else jsGet [0] ([0].length - 1))) ∧
    read (write true { c := 0, h := 0, s := 1, l := 512, d := [0] } 100 0x41).2 100 =
      Int.ofNat 0x41 ∧
    (((0:Nat) = 0 →
        (write true { c := 0, h := 0, s := 1, l := 512, d := [0] } 100 0x41).2.iModify = 100 / 4 ∧
        (write true { c := 0, h := 0, s := 1, l := 512, d := [0] } 100 0x41).2.cModify = 1) ∧
     ((0:Nat) ≠ 0 →
        (write true { c := 0, h := 0, s := 1, l := 512, d := [0] } 100 0x41).2.iModify =
          min 0 (100 / 4) ∧
        (write true { c := 0, h := 0, s := 1, l := 512, d := [0] } 100 0x41).2.iModify +
          (write true { c := 0, h := 0, s := 1, l := 512, d := [0] } 100 0x41).2.cModify =
          max (0 + 0) (100 / 4 + 1))) :=
  claim_C6_write.1 { c := 0, h := 0, s := 1, l := 512, d := [0] } 100 0x41
    (by norm_num) (by decide) (by norm_num)

/-! ### Claims C4 and C7 — the tail of `buildVolume` -/

/-- The fields of a `VolInfo` that `buildVolume`'s final phase (lines
1755–1792 of the source) computes or re-checks: the arithmetic fields are
`Int` because the source's `|0` truncation operates on possibly negative
intermediate values.  (Fields obtained earlier in `buildVolume` are inputs
of `buildVolumeFinalize` below.) -/
structure VolInfo where
  vbaRoot : Int
  nEntries : Int
  cbSector : Int
  lbaTotal : Int
  clusSecs : Int
  idMedia : Nat
  vbaData : Int
  clusTotal : Int
  nFATBits : Nat
  clusMax : Nat
deriving Repr, DecidableEq

/-- The final phase of `buildVolume`: from the BPB-derived fields it computes
`vbaData` (rounding the root-directory size up to whole sectors, `|0`
truncation modelled by `Int.tdiv`), `clusTotal`, picks `nFATBits` by the
FAT12 cluster maximum 4084 and `clusMax` accordingly, and then validates the
FAT ID against the media ID: on a mismatch it reports an error and returns
`null` (`none`). -/
def buildVolumeFinalize (vbaRoot nEntries cbSector lbaTotal clusSecs : Int)
    (idMedia idFAT : Nat) : Option VolInfo :=
  let vbaData := vbaRoot + Int.tdiv (nEntries * 32 + (cbSector - 1)) cbSector
  let clusTotal := Int.tdiv (lbaTotal - vbaData) clusSecs
  let nFATBits : Nat := if clusTotal ≤ 4084 then 12 else 16
  let clusMax : Nat := if nFATBits = 12 then 0xFF6 else 0xFFF6
  if idFAT ≠ idMedia then none
  else some { vbaRoot := vbaRoot, nEntries := nEntries, cbSector := cbSector,
              lbaTotal := lbaTotal, clusSecs := clusSecs, idMedia := idMedia,
              vbaData := vbaData, clusTotal := clusTotal,
              nFATBits := nFATBits, clusMax := clusMax }

/-- **C4 (confirmed).**  Every `VolInfo` produced by `buildVolume`'s final
phase (on the meaningful domain: positive sector and cluster sizes,
non-negative root parameters, and a data area that fits in the volume)
satisfies `vbaData = vbaRoot + ⌈nEntries·32 / cbSector⌉` (stated by the
characteristic inequalities of the ceiling), `clusTotal =
⌊(lbaTotal − vbaData) / clusSecs⌋` (characteristic inequalities of the
floor), and `nFATBits = 12` iff `clusTotal ≤ 4084`. -/
theorem claim_C4_volume_invariants (vbaRoot nEntries cbSector lbaTotal clusSecs : Int)
    (idMedia idFAT : Nat) (vol : VolInfo)
    (h0 : 0 ≤ vbaRoot) (h1 : 0 ≤ nEntries) (hcb : 0 < cbSector) (hcs : 0 < clusSecs)
    (hvol : buildVolumeFinalize vbaRoot nEntries cbSector lbaTotal clusSecs idMedia idFAT
      = some vol)
    (hfit : vol.vbaData ≤ lbaTotal) :
    (nEntries * 32 ≤ (vol.vbaData - vbaRoot) * cbSector ∧
     (vol.vbaData - vbaRoot) * cbSector < nEntries * 32 + cbSector) ∧
    (clusSecs * vol.clusTotal ≤ lbaTotal - vol.vbaData ∧
     lbaTotal - vol.vbaData < clusSecs * (vol.clusTotal + 1)) ∧
    (vol.nFATBits = 12 ↔ vol.clusTotal ≤ 4084) := by
  unfold buildVolumeFinalize at hvol
  dsimp only at hvol
  split at hvol
  · exact absurd hvol (by simp)
  · rw [Option.some.injEq] at hvol
    subst hvol
    dsimp only
    have htd1 : Int.tdiv (nEntries * 32 + (cbSector - 1)) cbSector
        = (nEntries * 32 + (cbSector - 1)) / cbSector :=
      Int.tdiv_eq_ediv (by omega) (by omega)
    have hdm1 := Int.ediv_add_emod (nEntries * 32 + (cbSector - 1)) cbSector
    have hm1a := Int.emod_nonneg (nEntries * 32 + (cbSector - 1)) (show cbSector ≠ 0 by omega)
    have hm1b := Int.emod_lt_of_pos (nEntries * 32 + (cbSector - 1)) hcb
    dsimp only at hfit
    rw [htd1] at hfit ⊢
    have htd2 : Int.tdiv (lbaTotal - (vbaRoot + (nEntries * 32 + (cbSector - 1)) / cbSector))
        clusSecs
        = (lbaTotal - (vbaRoot + (nEntries * 32 + (cbSector - 1)) / cbSector)) / clusSecs :=
      Int.tdiv_eq_ediv (by omega) (by omega)
    have hdm2 := Int.ediv_add_emod
      (lbaTotal - (vbaRoot + (nEntries * 32 + (cbSector - 1)) / cbSector)) clusSecs
    have hm2a := Int.emod_nonneg
      (lbaTotal - (vbaRoot + (nEntries * 32 + (cbSector - 1)) / cbSector))
      (show clusSecs ≠ 0 by omega)
    have hm2b := Int.emod_lt_of_pos
      (lbaTotal - (vbaRoot + (nEntries * 32 + (cbSector - 1)) / cbSector)) hcs
    rw [htd2]
    refine ⟨⟨by nlinarith, by nlinarith⟩, ⟨by nlinarith, by nlinarith⟩, ?_⟩
    by_cases hle : (lbaTotal - (vbaRoot + (nEntries * 32 + (cbSector - 1)) / cbSector)) / clusSecs
        ≤ 4084
    · rw [if_pos hle]
      simp [hle]
    · rw [if_neg hle]
      simp [hle]

/-- Witness for C4: a 160 KB diskette volume (`vbaRoot = 5`, 64 root entries,
512-byte sectors, 320 total sectors, 1 sector per cluster, media/FAT ID
`0xFE`). -/
theorem claim_C4_volume_invariants_witness :
    ∃ vol, buildVolumeFinalize 5 64 512 320 1 0xFE 0xFE = some vol ∧
      ((64 * 32 ≤ (vol.vbaData - 5) * 512 ∧ (vol.vbaData - 5) * 512 < 64 * 32 + 512) ∧
       (1 * vol.clusTotal ≤ 320 - vol.vbaData ∧ 320 - vol.vbaData < 1 * (vol.clusTotal + 1)) ∧
       (vol.nFATBits = 12 ↔ vol.clusTotal ≤ 4084)) := by
  refine ⟨_, rfl, claim_C4_volume_invariants 5 64 512 320 1 0xFE 0xFE _
    (by norm_num) (by norm_num) (by norm_num) (by norm_num) rfl (by decide)⟩

/-- **C7 (counterexample).**  The claim says a FAT-ID/media-ID mismatch is a
recoverable warning after which table building proceeds.  In `buildVolume`
the mismatch is reported at `ERROR` severity and the function returns `null`:
at a concrete mismatching input the result is `none`, not a volume. -/
theorem claim_C7_counterexample :
    buildVolumeFinalize 5 64 512 320 1 0xFE 0xFC = none := by decide

/-- **C7 (amended).**  When the first FAT byte (FAT ID) differs from the
volume's media ID, `buildVolume` reports an error and returns `null` — the
volume is discarded rather than built.  (The warn-and-proceed behaviour the
spec describes belongs to the physical-media check in `buildDiskFromBuffer`,
not to `buildVolume`.) -/
theorem claim_C7_fat_mismatch_is_error (vbaRoot nEntries cbSector lbaTotal clusSecs : Int)
    (idMedia idFAT : Nat) (hne : idFAT ≠ idMedia) :
    buildVolumeFinalize vbaRoot nEntries cbSector lbaTotal clusSecs idMedia idFAT = none := by
  unfold buildVolumeFinalize
  rw [if_pos hne]

/-- Witness for the amended C7 at the concrete mismatching input. -/
theorem claim_C7_fat_mismatch_is_error_witness :
    buildVolumeFinalize 1 64 512 360 2 0xFD 0xF9 = none :=
  claim_C7_fat_mismatch_is_error 1 64 512 360 2 0xFD 0xF9 (by decide)

/-! ### Claim C8 — PSI `SECT` chunks with the data-error flag -/

/-- The `SECT`-chunk handler of `buildDiskFromPSI` (fields already decoded
from the chunk): flag bit 0 stores one fill-pattern word, flag bit 2 records
`dataError = -1`; a following `DATA` chunk (absent here) would append the
payload words. -/
def buildSectorFromPSISect (cylinder head idSector size flags pattern : Nat) : Sector :=
  { c := cylinder, h := head, s := idSector, l := size,
    d := if flags &&& 0x1 ≠ 0 then
        [(pattern ||| (pattern <<< 8) ||| (pattern <<< 16) ||| (pattern <<< 24)) &&& 0xffffffff]
      else [],
    dataError := if flags &&& 0x4 ≠ 0 then -1 else 0 }

/-- **C8 (counterexample).**  A SECT chunk with only flag bit 2 set produces
a sector with `dataError = -1` (the claim's first half holds), but `read` of
byte 0 of that sector returns 0, not `-1`: `read` never consults
`dataError`. -/
theorem claim_C8_counterexample :
    (buildSectorFromPSISect 0 0 1 512 0x4 0xF6).dataError = -1 ∧
    read (buildSectorFromPSISect 0 0 1 512 0x4 0xF6) 0 = 0 ∧
    (0 : Int) ≠ -1 := by decide

/-- **C8 (amended).**  A SECT chunk with flag bit 2 set produces a sector
carrying `dataError = -1`; however a subsequent `read` of a byte inside the
sector returns the (non-negative) decoded byte value — 0 when no data or fill
pattern was supplied — never `-1`; `read` returns `-1` only for byte indices
at or past the sector length. -/
theorem claim_C8_psi_data_error (cylinder head idSector size flags pattern : Nat)
    (hflag : flags &&& 0x4 ≠ 0) :
    (buildSectorFromPSISect cylinder head idSector size flags pattern).dataError = -1 ∧
    (∀ i, i < size →
      0 ≤ read (buildSectorFromPSISect cylinder head idSector size flags pattern) i) ∧
    (∀ i, size ≤ i →
      read (buildSectorFromPSISect cylinder head idSector size flags pattern) i = -1) := by
  refine ⟨?_, ?_, ?_⟩
  · unfold buildSectorFromPSISect
    dsimp only
    rw [if_pos hflag]
  · intro i hi
    unfold read
    rw [if_pos (show i < (buildSectorFromPSISect cylinder head idSector size flags pattern).l
      from hi)]
    dsimp only
    exact Int.ofNat_zero_le _
  · intro i hi
    unfold read
    rw [if_neg (show ¬(i < (buildSectorFromPSISect cylinder head idSector size flags pattern).l)
      from Nat.not_lt_of_le hi)]

/-- Witness for the amended C8 at the concrete SECT chunk of the
counterexample. -/
theorem claim_C8_psi_data_error_witness :
    (buildSectorFromPSISect 0 0 1 512 0x4 0xF6).dataError = -1 ∧
    (∀ i, i < 512 → 0 ≤ read (buildSectorFromPSISect 0 0 1 512 0x4 0xF6) i) ∧
    (∀ i, 512 ≤ i → read (buildSectorFromPSISect 0 0 1 512 0x4 0xF6) i = -1) :=
  claim_C8_psi_data_error 0 0 1 512 0x4 0xF6 (by decide)

/-! ### Claim C9 — building a disk from a file list (`buildDiskFromFiles`) -/

/-- `FileData`, the input record of `buildDiskFromFiles`: `size < 0` marks a
subdirectory whose contents are in `files`; `cluster` is assigned by
`buildFAT` (absent before that, modelling the JS `undefined`); `date`, when
present, is the already-encoded 32-bit FAT date/time of `buildDateTime`. -/
inductive FileData where
  | mk (name : String) (attr : Nat) (size : Int) (date : Option Nat)
       (cluster : Option Nat) (files : List FileData)

def FileData.name : FileData → String
  | .mk n _ _ _ _ _ => n

def FileData.attr : FileData → Nat
  | .mk _ a _ _ _ _ => a

def FileData.size : FileData → Int
  | .mk _ _ s _ _ _ => s

def FileData.date : FileData → Option Nat
  | .mk _ _ _ d _ _ => d

def FileData.cluster : FileData → Option Nat
  | .mk _ _ _ _ c _ => c

def FileData.files : FileData → List FileData
  | .mk _ _ _ _ _ fs => fs

/-- The `aDefaultBPBs` table: the nine BPB templates (160Kb, 320Kb, 180Kb,
360Kb, 1.2Mb, 720Kb ×2, 1.44Mb, 10Mb), each 32 bytes (reads past the end
coerce to 0, as the source's `|| 0` does). -/
def aDefaultBPBs : List (List Nat) := [
  [0xEB, 0xFE, 0x90, 0x50, 0x43, 0x4A, 0x53, 0x2E, 0x4F, 0x52, 0x47,
   0x00, 0x02, 0x01, 0x01, 0x00, 0x02, 0x40, 0x00, 0x40, 0x01, 0xFE,
   0x01, 0x00, 0x08, 0x00, 0x01, 0x00, 0x00, 0x00, 0x00, 0x00],
  [0xEB, 0xFE, 0x90, 0x50, 0x43, 0x4A, 0x53, 0x2E, 0x4F, 0x52, 0x47,
   0x00, 0x02, 0x02, 0x01, 0x00, 0x02, 0x70, 0x00, 0x80, 0x02, 0xFF,
   0x01, 0x00, 0x08, 0x00, 0x02, 0x00, 0x00, 0x00, 0x00, 0x00],
  [0xEB, 0xFE, 0x90, 0x50, 0x43, 0x4A, 0x53, 0x2E, 0x4F, 0x52, 0x47,
   0x00, 0x02, 0x01, 0x01, 0x00, 0x02, 0x40, 0x00, 0x68, 0x01, 0xFC,
   0x02, 0x00, 0x09, 0x00, 0x01, 0x00, 0x00, 0x00, 0x00, 0x00],
  [0xEB, 0xFE, 0x90, 0x50, 0x43, 0x4A, 0x53, 0x2E, 0x4F, 0x52, 0x47,
   0x00, 0x02, 0x02, 0x01, 0x00, 0x02, 0x70, 0x00, 0xD0, 0x02, 0xFD,
   0x02, 0x00, 0x09, 0x00, 0x02, 0x00, 0x00, 0x00, 0x00, 0x00],
  [0xEB, 0xFE, 0x90, 0x50, 0x43, 0x4A, 0x53, 0x2E, 0x4F, 0x52, 0x47,
   0x00, 0x02, 0x01, 0x01, 0x00, 0x02, 0xE0, 0x00, 0x60, 0x09, 0xF9,
   0x07, 0x00, 0x0F, 0x00, 0x02, 0x00, 0x00, 0x00, 0x00, 0x00],
  [0xEB, 0xFE, 0x90, 0x50, 0x43, 0x4A, 0x53, 0x2E, 0x4F, 0x52, 0x47,
   0x00, 0x02, 0x02, 0x01, 0x00, 0x02, 0x70, 0x00, 0xA0, 0x05, 0xF9,
   0x03, 0x00, 0x09, 0x00, 0x02, 0x00, 0x00, 0x00, 0x00, 0x00],
  [0xEB, 0xFE, 0x90, 0x50, 0x43, 0x4A, 0x53, 0x2E, 0x4F, 0x52, 0x47,
   0x00, 0x02, 0x01, 0x01, 0x00, 0x02, 0x70, 0x00, 0xA0, 0x05, 0xF9,
   0x05, 0x00, 0x09, 0x00, 0x02, 0x00, 0x00, 0x00, 0x00, 0x00],
  [0xEB, 0xFE, 0x90, 0x50, 0x43, 0x4A, 0x53, 0x2E, 0x4F, 0x52, 0x47,
   0x00, 0x02, 0x01, 0x01, 0x00, 0x02, 0xE0, 0x00, 0x40, 0x0B, 0xF0,
   0x09, 0x00, 0x12, 0x00, 0x02, 0x00, 0x00, 0x00, 0x00, 0x00],
  [0xEB, 0xFE, 0x90, 0x50, 0x43, 0x4A, 0x53, 0x2E, 0x4F, 0x52, 0x47,
   0x00, 0x02, 0x08, 0x01, 0x00, 0x02, 0x00, 0x02, 0x03, 0x51, 0xF8,
   0x08, 0x00, 0x11, 0x00, 0x04, 0x00, 0x01, 0x00, 0x00, 0x00]]

/-- `calcFileSizes(aFileData, cSectorsPerCluster)` — total bytes needed,
rounding each file up to the cluster size (`(cSectorsPerCluster || 1) * 512`;
the absent-argument default is modelled by 0); a directory (`size < 0`)
counts `(childCount + 2) · 32` bytes for itself plus its recursive total. -/
def calcFileSizes : List FileData → Nat → Nat
  | [], _ => 0
  | .mk _ _ size _ _ files :: rest, cSPC =>
    let cbCluster := (if cSPC = 0 then 1 else cSPC) * 512
    let p : Nat × Nat :=
      if size < 0 then ((files.length + 2) * 32, calcFileSizes files cSPC)
      else (size.toNat, 0)
    let rounded := p.1 + (if p.1 % cbCluster = 0 then 0 else cbCluster - p.1 % cbCluster)
    rounded + p.2 + calcFileSizes rest cSPC

/-- One iteration of the BPB-selection loop of `buildDiskFromFiles`
(lines 731–765): `true` when template `iBPB` is acceptable for the file set
and target capacity. -/
def bpbFits (aFileData : List FileData) (kbTarget iBPB : Nat) : Bool :=
  let abBoot := aDefaultBPBs.getD iBPB []
  let nTargetSectors := kbTarget * 2
  if ((jsGet abBoot 0x15 = 0xF8) ≠ (10000 ≤ kbTarget)) then false
  else
    let cRootEntries := jsGet abBoot 0x11 ||| (jsGet abBoot 0x12 <<< 8)
    if cRootEntries < aFileData.length then false
    else
      let cbSector := jsGet abBoot 0x0B ||| (jsGet abBoot 0x0C <<< 8)
      let cSPC := jsGet abBoot 0x0D
      let cFATs := jsGet abBoot 0x10
      let cFATSectors := jsGet abBoot 0x16 ||| (jsGet abBoot 0x17 <<< 8)
      let cRootSectors := (cRootEntries * 32 + cbSector - 1) / cbSector
      let cTotalSectors := jsGet abBoot 0x13 ||| (jsGet abBoot 0x14 <<< 8)
      let cHiddenSectors := jsGet abBoot 0x1C ||| (jsGet abBoot 0x1D <<< 8)
      let cDataSectors : Int := (cTotalSectors : Int) - (cRootSectors + cFATs * cFATSectors + 1)
      let cbAvail : Int := cDataSectors * cbSector
      if nTargetSectors = 0 ∨ cHiddenSectors ≠ 0 then
        decide ((calcFileSizes aFileData 0 : Int) ≤ cbAvail ∧
          (calcFileSizes aFileData cSPC : Int) ≤ cbAvail)
      else decide (cTotalSectors = nTargetSectors)

/-- The BPB-selection loop: index of the first acceptable template
(`none` models the source's "too many file(s)" error return). -/
def selectBPB (aFileData : List FileData) (kbTarget : Nat) : Option Nat :=
  (List.range aDefaultBPBs.length).find? (bpbFits aFileData kbTarget)

/-- `buildFATEntry(abFAT, iFAT, v)` — writes the 12-bit FAT cell `iFAT`
into the byte array (the `=== undefined` guards of the source are the
hole-reads-as-0 convention of `jsGet`/`jsSet`). -/
def buildFATEntry (abFAT : List Nat) (iFAT v : Nat) : List Nat :=
  let iBit := iFAT * 12
  let iByte := iBit >>> 3
  if iBit % 8 = 0 then
    let ab1 := jsSet abFAT iByte (v &&& 0xff)
    jsSet ab1 (iByte + 1) ((jsGet ab1 (iByte + 1) &&& 0xF0) ||| (v >>> 8))
  else
    let ab1 := jsSet abFAT iByte ((jsGet abFAT iByte &&& 0x0F) ||| ((v &&& 0xF) <<< 4))
    jsSet ab1 (iByte + 1) (v >>> 4)

/-- The cluster-chain loop of `buildFAT`: writes `n` consecutive cells
starting at `iCluster`, each pointing at the next, the last holding `0xFFF`. -/
def buildFATChain : List Nat → Nat → Nat → List Nat × Nat
  | abFAT, iCluster, 0 => (abFAT, iCluster)
  | abFAT, iCluster, n + 1 =>
    let iNextCluster := if n = 0 then 0xFFF else iCluster + 1
    buildFATChain (buildFATEntry abFAT iCluster iNextCluster) (iCluster + 1) n

/-- The first pass of `buildFAT`: assigns each file its starting cluster
(0 for empty files), writes its chain cells, and returns the byte array,
the file list with clusters recorded, and the next free cluster. -/
def buildFATPass1 : List Nat → List FileData → Nat → Nat → List Nat × List FileData × Nat
  | abFAT, [], iCluster, _ => (abFAT, [], iCluster)
  | abFAT, .mk name attr size date _ files :: rest, iCluster, cbCluster =>
    let cb : Nat := if size < 0 then (files.length + 2) * 32 else size.toNat
    let cFileClusters := (cb + cbCluster - 1) / cbCluster
    if cFileClusters = 0 then
      let r := buildFATPass1 abFAT rest iCluster cbCluster
      (r.1, .mk name attr size date (some 0) files :: r.2.1, r.2.2)
    else
      let rc := buildFATChain abFAT iCluster cFileClusters
      let r := buildFATPass1 rc.1 rest rc.2 cbCluster
      (r.1, .mk name attr size date (some iCluster) files :: r.2.1, r.2.2)

mutual

/-- `buildFAT(abFAT, aFileData, iCluster, cbCluster)` — first pass over the
list, then the subdirectory pass.  The model returns the updated byte array,
the top-level list with clusters recorded, and the final next-free cluster;
cluster assignments made inside subdirectories are recorded in the FAT bytes
(the source mutates the shared child objects, which no claim reads back). -/
def buildFAT (abFAT : List Nat) (aFileData : List FileData) (iCluster cbCluster : Nat) :
    List Nat × List FileData × Nat :=
  let r1 := buildFATPass1 abFAT aFileData iCluster cbCluster
  let r2 := buildFATSubdirs r1.1 aFileData r1.2.2 cbCluster
  (r2.1, r1.2.1, r2.2)

/-- The second pass of `buildFAT`: recurse into each subdirectory's files. -/
def buildFATSubdirs (abFAT : List Nat) (aFileData : List FileData) (iCluster cbCluster : Nat) :
    List Nat × Nat :=
  match aFileData with
  | [] => (abFAT, iCluster)
  | .mk _ _ size _ _ files :: rest =>
    if size < 0 then
      let r := buildFAT abFAT files iCluster cbCluster
      buildFATSubdirs r.1 rest r.2.2 cbCluster
    else buildFATSubdirs abFAT rest iCluster cbCluster

end

/-- Strip leading and trailing whitespace (the JS `trim()`). -/
def trimChars (cs : List Char) : List Char :=
  ((cs.dropWhile Char.isWhitespace).reverse.dropWhile Char.isWhitespace).reverse

/-- `lastIndexOf('.')` over a character list. -/
def lastIndexOfDot (cs : List Char) : Option Nat :=
  (List.range cs.length).foldl (fun acc i => if cs.getD i ' ' = '.' then some i else acc) none

/-- The characters FAT 8.3 names may contain (the source's charset string). -/
def validShortNameChars : List Char :=
  "ABCDEFGHIJKLMNOPQRSTUVWXYZ0123456789!#$%&\x27()-@^_\x60\x7b\x7d~".toList

/-- `buildShortName(sFile, fLabel)` — uppercase, split base/extension on the
last period (a label instead takes its "extension" from position 8 on),
truncate to 8+3, trim, and replace invalid characters with `_` (skipping the
period that rejoins base and extension). -/
def buildShortName (sFile : String) (fLabel : Bool) : String :=
  let cs := sFile.toList.map Char.toUpper
  let p : List Char × List Char :=
    match lastIndexOfDot cs with
    | some i => (cs.take i, cs.drop (i + 1))
    | none => if fLabel ∧ 8 < cs.length then (cs, cs.drop 8) else (cs, [])
  let sName := trimChars (p.1.take 8)
  let sExt := trimChars (p.2.take 3)
  let q : Option Nat × List Char :=
    if sExt ≠ [] then (some sName.length, sName ++ '.' :: sExt) else (none, sName)
  String.mk (q.2.mapIdx (fun i ch =>
    if q.1 = some i then ch
    else if ch ∈ validShortNameChars then ch else '_'))

/-- `buildDirEntry(ab, off, sName, cbFile, bAttr, dateMod, iCluster)` — the
32 bytes of one directory entry (the 10 reserved bytes and an absent
`dateMod` read back as 0, the JS-hole convention). -/
def buildDirEntry (sName : String) (cbFile : Int) (bAttr : Nat) (dateMod : Option Nat)
    (iCluster : Nat) : List Nat :=
  let cs := sName.toList
  let i := cs.indexOf '.'
  let p : List Char × List Char :=
    if 0 < i ∧ i < cs.length then (cs.take i, cs.drop (i + 1)) else (cs, [])
  let nameBytes := (List.range 8).map
    (fun k => if k < p.1.length then (p.1.getD k ' ').toNat else 0x20)
  let extBytes := (List.range 3).map
    (fun k => if k < p.2.length then (p.2.getD k ' ').toNat else 0x20)
  let dateBytes := match dateMod with
    | some dt => [dt &&& 0xff, (dt >>> 8) &&& 0xff, (dt >>> 16) &&& 0xff, (dt >>> 24) &&& 0xff]
    | none => [0, 0, 0, 0]
  let cb := (if cbFile < 0 then 0 else cbFile).toNat
  nameBytes ++ extBytes ++ [bAttr] ++ List.replicate 10 0 ++ dateBytes ++
    [iCluster &&& 0xff, (iCluster >>> 8) &&& 0xff] ++
    [cb &&& 0xff, (cb >>> 8) &&& 0xff, (cb >>> 16) &&& 0xff, (cb >>> 24) &&& 0xff]

/-- The per-file loop of `buildDir`: skip files with no cluster assigned,
emit a directory entry for the rest. -/
def buildDirFiles : List FileData → List Nat × Nat
  | [] => ([], 0)
  | f :: rest =>
    let r := buildDirFiles rest
    match f.cluster with
    | none => r
    | some cl =>
      (buildDirEntry (buildShortName f.name (f.attr &&& 0x08 ≠ 0)) f.size f.attr f.date cl
        ++ r.1, r.2 + 1)

/-- `buildDir(abDir, aFileData, dateMod, iCluster, iParentCluster)` — when a
cluster is given (a subdirectory) prepend the `.` and `..` entries; returns
the directory bytes and the entry count.  (`iParentCluster` is absent only
together with `iCluster`.) -/
def buildDir (aFileData : List FileData) (dateMod : Option Nat) (iCluster : Option Nat)
    (iParentCluster : Option Nat) : List Nat × Nat :=
  let dots : List Nat × Nat :=
    match iCluster with
    | some ic =>
      (buildDirEntry "." 0 0x10 dateMod ic ++
        buildDirEntry ".." 0 0x10 dateMod (iParentCluster.getD 0), 2)
    | none => ([], 0)
  let r := buildDirFiles aFileData
  (dots.1 ++ r.1, dots.2 + r.2)

/-- On a list with no subdirectories the second pass of `buildFAT` is the
identity. -/
theorem buildFATSubdirs_flat (abFAT : List Nat) (afd : List FileData) (ic cb : Nat)
    (h : ∀ f ∈ afd, ¬(f.size < 0)) : buildFATSubdirs abFAT afd ic cb = (abFAT, ic) := by
  induction afd with
  | nil => rw [buildFATSubdirs.eq_def]
  | cons f rest ih =>
    obtain ⟨name, attr, size, date, cluster, files⟩ := f
    rw [buildFATSubdirs.eq_def]
    dsimp only
    have hs : ¬(size < 0) := by
      have := h (FileData.mk name attr size date cluster files) (List.mem_cons_self _ _)
      simpa [FileData.size] using this
    rw [if_neg hs]
    exact ih (fun g hg => h g (List.mem_cons_of_mem _ hg))

/-- On a list with no subdirectories `buildFAT` is exactly its first pass. -/
theorem buildFAT_flat (abFAT : List Nat) (afd : List FileData) (ic cb : Nat)
    (h : ∀ f ∈ afd, ¬(f.size < 0)) :
    buildFAT abFAT afd ic cb =
      ((buildFATPass1 abFAT afd ic cb).1, (buildFATPass1 abFAT afd ic cb).2.1,
       (buildFATPass1 abFAT afd ic cb).2.2) := by
  rw [buildFAT.eq_def]
  dsimp only
  rw [buildFATSubdirs_flat _ _ _ _ h]

/-- Reading a 12-bit FAT cell back out of the packed byte array (the
standard FAT12 layout that `buildFATEntry` writes). -/
def fat12Cell (abFAT : List Nat) (i : Nat) : Nat :=
  let iByte := i * 12 / 8
  if i % 2 = 0 then jsGet abFAT iByte ||| ((jsGet abFAT (iByte + 1) &&& 0xF) <<< 8)
  else (jsGet abFAT iByte >>> 4) ||| (jsGet abFAT (iByte + 1) <<< 4)

/-- **C9 (confirmed).**  Building from
`[{name:"HELLO.TXT", size:13, data:"Hello, world!"}]` with a 160 KB target:
the selection loop picks template 0 (the 160 KB BPB, media ID `0xFE`); after
seeding FAT cells 0 and 1 (`mediaID | 0xF00` and `0xFFF`) `buildFAT` assigns
the file cluster 2 and only cluster 2 (the next free cluster is 3); the FAT
cells read back as `[0] = 0xFFE`, `[1] = 0xFFF`, `[2] = 0xFFF`; and the root
directory holds exactly one entry whose starting-cluster field is 2. -/
theorem claim_C9_hello_build :
    selectBPB [.mk "HELLO.TXT" 0 13 none none []] 160 = some 0 ∧
    jsGet (aDefaultBPBs.getD 0 []) 0x15 = 0xFE ∧
    (let abBoot := aDefaultBPBs.getD 0 []
     let cbCluster := (jsGet abBoot 0x0B ||| (jsGet abBoot 0x0C <<< 8)) * jsGet abBoot 0x0D
     let abFAT0 := buildFATEntry (buildFATEntry [] 0 (jsGet abBoot 0x15 ||| 0xF00)) 1 0xFFF
     let r := buildFAT abFAT0 [.mk "HELLO.TXT" 0 13 none none []] 2 cbCluster
     fat12Cell r.1 0 = 0xFFE ∧ fat12Cell r.1 1 = 0xFFF ∧ fat12Cell r.1 2 = 0xFFF ∧
     r.2.1.map FileData.cluster = [some 2] ∧ r.2.2 = 3 ∧
     (let dir := buildDir r.2.1 none none none
      dir.2 = 1 ∧ jsGet dir.1 0x1A = 2 ∧ jsGet dir.1 0x1B = 0)) := by
  refine ⟨by decide, by decide, ?_⟩
  dsimp only
  rw [buildFAT_flat _ _ _ _ (by
    intro f hf
    rw [List.mem_singleton] at hf
    subst hf
    decide)]
  decide

/-! ### Claims C1, C5, C10 — `buildDiskFromBuffer` and `getData` -/

/-- One entry of the `GEOMETRIES` table:
`[nCylinders, nHeads, nSectorsPerTrack, cbSector?, mediaID?]` (the last two
may be absent, the source's array holes). -/
structure Geometry where
  nC : Nat
  nH : Nat
  nS : Nat
  cb : Option Nat
  media : Option Nat
deriving Repr, DecidableEq

/-- The `DiskImage.GEOMETRIES` table, keyed by buffer length. -/
def GEOMETRIES (len : Nat) : Option Geometry :=
  if len = 163840 then some ⟨40, 1, 8, none, some 0xFE⟩
  else if len = 184320 then some ⟨40, 1, 9, none, some 0xFC⟩
  else if len = 327680 then some ⟨40, 2, 8, none, some 0xFF⟩
  else if len = 368640 then some ⟨40, 2, 9, none, some 0xFD⟩
  else if len = 737280 then some ⟨80, 2, 9, none, some 0xF9⟩
  else if len = 1228800 then some ⟨80, 2, 15, none, some 0xF9⟩
  else if len = 1474560 then some ⟨80, 2, 18, none, some 0xF0⟩
  else if len = 2949120 then some ⟨80, 2, 36, none, some 0xF0⟩
  else if len = 10653696 then some ⟨306, 4, 17, none, none⟩
  else if len = 21411840 then some ⟨615, 4, 17, none, none⟩
  else if len = 256256 then some ⟨77, 1, 26, some 128, none⟩
  else if len = 2494464 then some ⟨203, 2, 12, some 512, none⟩
  else if len = 5242880 then some ⟨256, 2, 40, some 256, none⟩
  else if len = 10485760 then some ⟨512, 2, 40, some 256, none⟩
  else none

/-- The MBR probe of `buildDiskFromBuffer` (buffers of at least 3,000,000
bytes whose first sector ends `0x55 0xAA`): the boot-sector offset is the
starting LBA of the first active partition entry times 512. -/
def offBootSectorOf (B : List Nat) : Nat :=
  if 3000000 ≤ B.length ∧ readUInt16LE B 0x1FE = 0xAA55 then
    match [0x1BE, 0x1CE, 0x1DE, 0x1EE].find? (fun off => 0x80 ≤ readUInt8 B off) with
    | some off => readUInt32LE B (off + 0x08) * 512
    | none => 0
  else 0

/-- The original BPB bytes saved by `buildDiskFromBuffer`: the boot-sector
offset followed by the 0x24 bytes `JMP_OPCODE .. LARGE_SECS+3`. -/
def abOrigBPBOf (B : List Nat) : List Nat :=
  offBootSectorOf B :: (List.range 0x24).map (fun i => readUInt8 B (offBootSectorOf B + i))

/-- The geometry/BPB reconciliation and in-place BPB repair of
`buildDiskFromBuffer`, for the one-argument call `buildDiskFromBuffer(db)`
(no hash, `forceBPB` false, no sector overrides, XDF support off, prints
omitted).  `bufferAfter` is the buffer after any BPB-repair and OEM-string
writes. -/
structure BuildParams where
  offBootSector : Nat
  nCylinders : Nat
  nHeads : Nat
  nSectorsPerTrack : Nat
  nLogicalSectorsPerTrack : Nat
  cbSector : Nat
  bufferAfter : List Nat

/-- The in-place BPB repair of `buildDiskFromBuffer` (lines 387–424): when a
default BPB was matched and the on-disk BPB is absent or disagrees with it
(`doFix`), a boot sector starting `JMPS disp` (disp ≥ 0x22) gets the default
BPB bytes `[0x0B, 0x24)`, and an unformatted sector starting `0xF6 0xF6`
with a plausible media ID gets the full default BPB `[0x00, 0x24)`. -/
def repairBPB (B : List Nat) (offBootSector iBPB1 : Nat) (doFix : Bool)
    (bMediaIDBPB2 : Nat) : List Nat :=
  let bByte0 := readUInt8 B offBootSector
  let bByte1 := readUInt8 B (offBootSector + 1)
  if doFix then
    if (bByte0 == 0xEB) && (0x22 ≤ bByte1) then
      writeBytes B (offBootSector + 0x0B)
        ((List.range (0x24 - 0x0B)).map (fun k => jsGet (aDefaultBPBs.getD iBPB1 []) (0x0B + k)))
    else if (bByte0 == 0xF6) && (bByte1 == 0xF6) && (0xF8 < bMediaIDBPB2) then
      writeBytes B offBootSector ((List.range 0x24).map (jsGet (aDefaultBPBs.getD iBPB1 [])))
    else B
  else B

/-- The OEM-string overwrite of `buildDiskFromBuffer` (lines 427–441): a
boot sector with a BPB and a 0xAA55 signature whose OEM field is not already
"PCJS" gets "PCJS.ORG" written at offset 3. -/
def brandOEM (B1 : List Nat) (offBootSector : Nat) (fBPBExists : Bool) : List Nat :=
  if fBPBExists && (readUInt16LE B1 (offBootSector + 0x1FE) == 0xAA55) then
    if readInt32BE B1 (offBootSector + 0x03) ≠ 0x50434A53 then
      writeBytes B1 (offBootSector + 0x03) [0x50, 0x43, 0x4A, 0x53, 0x2E, 0x4F, 0x52, 0x47]
    else B1
  else B1

/-- Sequential translation of `buildDiskFromBuffer` lines 160–488 (see
`BuildParams`).  The DSK-header fallback (lines 443–488) is outside the
modelled scope: it is reachable only when neither the geometry table nor a
BPB yields a head count, which no claim exercises; `buildDiskFromBuffer`
below returns `none` in that situation just as the source returns `false`
when the fallback also fails. -/
def buildDiskParams (B : List Nat) : BuildParams :=
  let cbDiskData := B.length
  let offBootSector := offBootSectorOf B
  let bByte0 := readUInt8 B offBootSector
  let bByte1 := readUInt8 B (offBootSector + 1)
  let cbSectorBPB := readUInt16LE B (offBootSector + 0x0B)
  let g := GEOMETRIES cbDiskData
  let nCylinders0 := match g with | some gg => gg.nC | none => 0
  let nHeads0 := match g with | some gg => gg.nH | none => 0
  let nSectors0 := match g with | some gg => gg.nS | none => 0
  let cbSector : Nat := match g with | some gg => gg.cb.getD 512 | none => 512
  let bMediaID0 : Nat := match g with | some gg => gg.media.getD 0 | none => 0
  let nHeadsBPB := readUInt16LE B (offBootSector + 0x1A)
  let nSectorsPerTrackBPB := readUInt16LE B (offBootSector + 0x18)
  let fBPBExists : Bool := (bByte0 == 0xE9 || bByte0 == 0xEB) && (cbSectorBPB == cbSector)
    && (nHeadsBPB != 0) && (nSectorsPerTrackBPB != 0)
  let bMediaIDBPB : Nat := if fBPBExists then readUInt8 B (offBootSector + 0x15) else 0
  let nHeads := if g.isSome then nHeads0 else if fBPBExists then nHeadsBPB else 0
  let nSectorsPerTrack := if g.isSome then nSectors0
    else if fBPBExists then nSectorsPerTrackBPB else 0
  let nCylinders := if g.isSome then nCylinders0
    else if fBPBExists then cbDiskData / (nHeadsBPB * nSectorsPerTrackBPB * cbSector) else 0
  let bMediaID := if g.isSome then bMediaID0 else if fBPBExists then bMediaIDBPB else 0
  let iBPB0 : Option Nat :=
    if bMediaID ≠ 0 then
      (List.range aDefaultBPBs.length).find? (fun i =>
        let t := aDefaultBPBs.getD i []
        (jsGet t 0x15 == bMediaID) &&
        ((jsGet t 0x13 + jsGet t 0x14 * 0x100) * cbSector == cbDiskData) &&
        (!fBPBExists || (readUInt8 B (offBootSector + 0x0D) == jsGet t 0x0D)))
    else none
  let bMediaIDBPB2 := if iBPB0.isSome && (bMediaIDBPB == 0) then
      readUInt8 B (offBootSector + 512) else bMediaIDBPB
  let shrink : Bool := iBPB0.isSome &&
    ((decide (2 ≤ iBPB0.getD 0) && (bMediaIDBPB2 == 0xFF) && (bMediaID == 0xFD)) ||
     ((bMediaIDBPB2 == 0xFE) && (bMediaID == 0xFC)))
  let iBPB1 := if shrink then iBPB0.getD 0 - 2 else iBPB0.getD 0
  let nLogicalSectorsPerTrack := if shrink then jsGet (aDefaultBPBs.getD iBPB1 []) 0x18
    else nSectorsPerTrack
  let fBPBWarning : Bool := iBPB0.isSome && fBPBExists &&
    ((List.range (0x1E - 0x0B)).any (fun k =>
      (jsGet (aDefaultBPBs.getD iBPB1 []) (0x0B + k) != readUInt8 B (offBootSector + 0x0B + k))
      && (0x0B + k != 0x10) && (0x0B + k != 0x11)))
  let B1 := repairBPB B offBootSector iBPB1 (iBPB0.isSome && (!fBPBExists || fBPBWarning))
    bMediaIDBPB2
  let B2 := brandOEM B1 offBootSector fBPBExists
  { offBootSector := offBootSector, nCylinders := nCylinders, nHeads := nHeads,
    nSectorsPerTrack := nSectorsPerTrack,
    nLogicalSectorsPerTrack := nLogicalSectorsPerTrack,
    cbSector := cbSector, bufferAfter := B2 }

/-- The cylinder/head/sector grid loop of `buildDiskFromBuffer` (lines
490–661): track `(c, h)` is the slice of `cbTrack = nSectorsPerTrack ·
cbSector` bytes at offset `c · nHeads · cbTrack + h · cbTrack`, and sector
`k` (ID `k+1`) is built from the `cbSector`-byte slice at offset
`k · cbSector` of its track. -/
def buildDiskGrid (B2 : List Nat) (p : BuildParams) : List (List (List Sector)) :=
  let cbTrack := p.nSectorsPerTrack * p.cbSector
  (List.range p.nCylinders).map (fun iCylinder =>
    (List.range p.nHeads).map (fun iHead =>
      let dbTrack := (B2.drop (iCylinder * (p.nHeads * cbTrack) + iHead * cbTrack)).take cbTrack
      (List.range p.nLogicalSectorsPerTrack).map (fun k =>
        buildSector iCylinder iHead (k + 1) p.cbSector
          ((dbTrack.drop (k * p.cbSector)).take p.cbSector) 0)))

/-- The running `dwChecksum` accumulated by `initSector` over every sector
built, in build order, with 32-bit wrap-around at each step. -/
def diskChecksum (grid : List (List (List Sector))) : Nat :=
  (grid.flatMap (fun cyl => cyl.flatMap (fun trk => trk))).foldl
    (fun acc s => (acc + initSectorChecksum s.d s.l) % 2 ^ 32) 0

/-- The `DiskImage` state fields that `buildDiskFromBuffer` initialises and
`getData` consumes. -/
structure DiskState where
  aDiskData : List (List (List Sector))
  nCylinders : Nat
  nHeads : Nat
  nSectors : Nat
  cbSector : Nat
  cbDiskData : Nat
  dwChecksum : Nat
  abOrigBPB : List Nat
  fBPBModified : Bool

/-- The `DiskImage` state left behind by a successful `buildDiskFromBuffer`
call (see `buildDiskFromBuffer`). -/
def buildDiskState (B : List Nat) : DiskState :=
  let p := buildDiskParams B
  let grid := buildDiskGrid p.bufferAfter p
  { aDiskData := grid, nCylinders := p.nCylinders, nHeads := p.nHeads,
    nSectors := p.nLogicalSectorsPerTrack, cbSector := p.cbSector,
    cbDiskData := (grid.flatMap (fun cyl => cyl.flatMap (fun trk => trk.map Sector.l))).sum,
    dwChecksum := diskChecksum grid,
    abOrigBPB := abOrigBPBOf B, fBPBModified := false }

/-- `buildDiskFromBuffer(dbDisk)` — `none` models the source's `false`
return (no recognised geometry and no usable BPB; see `buildDiskParams` for
the DSK-fallback caveat).  `fBPBModified` stays `false` because no `hash`
argument is supplied on this call form. -/
def buildDiskFromBuffer (B : List Nat) : Option DiskState :=
  if (buildDiskParams B).nHeads ≠ 0 then some (buildDiskState B) else none

/-- The sector-serialisation loop of `getData`: every sector's bytes, in
cylinder/head/sector order. -/
def serializeGrid (grid : List (List (List Sector))) : List Nat :=
  grid.flatMap (fun cyl => cyl.flatMap (fun trk => trk.flatMap sectorBytes))

/-- `getData(dbDisk)` — serialises the grid and then, when original-BPB bytes
were saved, **shifts** the leading boot-sector offset off `abOrigBPB` and
rewrites the following 0x24 saved bytes at that offset.  Returns the written
buffer together with the mutated state. -/
def getData (st : DiskState) : List Nat × DiskState :=
  let ser := serializeGrid st.aDiskData
  match st.abOrigBPB with
  | [] => (ser, st)
  | off :: rest =>
    (writeBytes ser off ((List.range 0x24).map (fun i => jsGet rest i)),
     { st with abOrigBPB := rest })

/-! ### Supporting lemmas: `writeBytes`, chunked slicing, flattening -/

theorem writeBytes_length (bs : List Nat) : ∀ (db : List Nat) (off : Nat),
    (writeBytes db off bs).length = db.length := by
  induction bs with
  | nil => intro db off; rfl
  | cons b rest ih =>
    intro db off
    simp only [writeBytes]
    rw [ih, writeUInt8, List.length_set]

theorem writeBytes_jsGet (bs : List Nat) : ∀ (db : List Nat) (off j : Nat),
    jsGet (writeBytes db off bs) j =
      if off ≤ j ∧ j < off + bs.length ∧ j < db.length then bs.getD (j - off) 0
      else jsGet db j := by
  induction bs with
  | nil =>
    intro db off j
    simp only [writeBytes, List.length_nil]
    rw [if_neg (by omega)]
  | cons b rest ih =>
    intro db off j
    simp only [writeBytes, List.length_cons]
    rw [ih, writeUInt8, List.length_set]
    by_cases hoff : j = off
    · subst hoff
      rw [if_neg (by omega)]
      by_cases hl : j < db.length
      · rw [if_pos ⟨Nat.le_refl _, by omega, hl⟩, jsGet_set_self, if_pos hl, Nat.sub_self]
        rfl
      · rw [if_neg (by omega), jsGet_set_self, if_neg hl]
    · rw [jsGet_set_ne _ _ _ _ (fun hc => hoff hc.symm)]
      by_cases hc : off + 1 ≤ j ∧ j < off + 1 + rest.length ∧ j < db.length
      · rw [if_pos hc, if_pos (by omega)]
        have hsub : j - off = (j - (off + 1)) + 1 := by omega
        rw [hsub]
        rfl
      · rw [if_neg hc, if_neg (by omega)]

theorem writeBytes_bytes_lt (bs : List Nat) : ∀ (db : List Nat) (off : Nat),
    (∀ x ∈ db, x < 256) → (∀ x ∈ bs, x < 256) → ∀ x ∈ writeBytes db off bs, x < 256 := by
  induction bs with
  | nil => intro db off hdb _ x hx; exact hdb x hx
  | cons b rest ih =>
    intro db off hdb hbs x hx
    simp only [writeBytes] at hx
    refine ih (writeUInt8 db b off) (off + 1) ?_ (fun y hy => hbs y (List.mem_cons_of_mem _ hy))
      x hx
    intro y hy
    simp only [writeUInt8] at hy
    rcases List.mem_or_eq_of_mem_set hy with hmem | heq
    · exact hdb y hmem
    · exact heq ▸ hbs b (List.mem_cons_self _ _)

theorem length_flatMap_const {α β : Type} (l : List α) (f : α → List β) (n : Nat)
    (h : ∀ a ∈ l, (f a).length = n) : (l.flatMap f).length = l.length * n := by
  induction l with
  | nil => simp
  | cons a rest ih =>
    rw [List.flatMap_cons, List.length_append, h a (List.mem_cons_self _ _),
      ih (fun b hb => h b (List.mem_cons_of_mem _ hb)), List.length_cons]
    ring

/-- Concatenating the consecutive `k`-byte chunks of a list of length `n·k`
recovers the list. -/
theorem flatMap_range_chunks {α : Type} (n : Nat) : ∀ (L : List α) (k : Nat),
    L.length = n * k →
    (List.range n).flatMap (fun i => (L.drop (i * k)).take k) = L := by
  induction n with
  | zero =>
    intro L k h
    rw [Nat.zero_mul] at h
    rw [List.eq_nil_of_length_eq_zero h]
    rfl
  | succ n ih =>
    intro L k h
    rw [List.range_succ_eq_map, List.flatMap_cons, List.flatMap_map]
    have h1 : (L.drop (0 * k)).take k = L.take k := by rw [Nat.zero_mul, List.drop_zero]
    have h2 : (List.range n).flatMap (fun i => (L.drop (Nat.succ i * k)).take k)
        = (List.range n).flatMap (fun i => ((L.drop k).drop (i * k)).take k) := by
      apply List.flatMap_congr
      intro i _
      have hmul : Nat.succ i * k = k + i * k := by rw [Nat.succ_mul, Nat.add_comm]
      rw [List.drop_drop, hmul]
    rw [h1, h2, ih (L.drop k) k (by rw [List.length_drop, h, Nat.succ_mul]; omega)]
    exact List.take_append_drop k L

/-- A sub-slice of a slice is a slice of the base list. -/
theorem slice_slice {α : Type} (L : List α) (a m b k : Nat) (h : b + k ≤ m) :
    (((L.drop a).take m).drop b).take k = (L.drop (a + b)).take k := by
  rw [List.drop_take, List.take_take, Nat.min_eq_left (by omega), List.drop_drop]

/-- Serialising one track of the grid recovers the track's byte slice. -/
theorem track_serialize (B2 : List Nat) (hB : ∀ x ∈ B2, x < 256) (c h nS cb off : Nat)
    (h4 : 4 ∣ cb) (hoff : off + nS * cb ≤ B2.length) :
    ((List.range nS).map (fun k =>
        buildSector c h (k + 1) cb
          ((((B2.drop off).take (nS * cb)).drop (k * cb)).take cb) 0)).flatMap sectorBytes
    = (B2.drop off).take (nS * cb) := by
  rw [List.flatMap_map]
  have hsec : ∀ k ∈ List.range nS,
      sectorBytes (buildSector c h (k + 1) cb
          ((((B2.drop off).take (nS * cb)).drop (k * cb)).take cb) 0)
      = (((B2.drop off).take (nS * cb)).drop (k * cb)).take cb := by
    intro k hk
    rw [List.mem_range] at hk
    apply sectorBytes_buildSector
    · intro x hx
      exact hB x (List.mem_of_mem_drop (List.mem_of_mem_take
        (List.mem_of_mem_drop (List.mem_of_mem_take hx))))
    · exact h4
    · rw [List.length_take, List.length_drop, List.length_take, List.length_drop]
      have hkk : k * cb + cb ≤ nS * cb := by
        calc k * cb + cb = (k + 1) * cb := by ring
          _ ≤ nS * cb := Nat.mul_le_mul_right _ (by omega)
      omega
  rw [List.flatMap_congr hsec]
  apply flatMap_range_chunks
  rw [List.length_take, List.length_drop]
  omega

/-- Serialising the whole grid built by `buildDiskGrid` recovers the buffer
it was built from, whenever the grid's dimensions tile the buffer exactly
and no shrink-to-logical occurred. -/
theorem serialize_buildDiskGrid (p : BuildParams) (B2 : List Nat) (nC nH nS cb : Nat)
    (hpC : p.nCylinders = nC) (hpH : p.nHeads = nH) (hpS : p.nSectorsPerTrack = nS)
    (hpL : p.nLogicalSectorsPerTrack = nS) (hpcb : p.cbSector = cb)
    (hB : ∀ x ∈ B2, x < 256) (h4 : 4 ∣ cb)
    (hlen : B2.length = nC * (nH * (nS * cb))) :
    serializeGrid (buildDiskGrid B2 p) = B2 := by
  unfold serializeGrid buildDiskGrid
  dsimp only
  rw [hpC, hpH, hpS, hpL, hpcb, List.flatMap_map]
  have hcyl : ∀ c ∈ List.range nC,
      ((List.range nH).map (fun h =>
        (List.range nS).map (fun k =>
          buildSector c h (k + 1) cb
            ((((B2.drop (c * (nH * (nS * cb)) + h * (nS * cb))).take (nS * cb)).drop
                (k * cb)).take cb) 0))).flatMap (fun trk => trk.flatMap sectorBytes)
      = (B2.drop (c * (nH * (nS * cb)))).take (nH * (nS * cb)) := by
    intro c hc
    rw [List.mem_range] at hc
    rw [List.flatMap_map]
    have htrk : ∀ h ∈ List.range nH,
        ((List.range nS).map (fun k =>
          buildSector c h (k + 1) cb
            ((((B2.drop (c * (nH * (nS * cb)) + h * (nS * cb))).take (nS * cb)).drop
                (k * cb)).take cb) 0)).flatMap sectorBytes
        = (((B2.drop (c * (nH * (nS * cb)))).take (nH * (nS * cb))).drop (h * (nS * cb))).take
            (nS * cb) := by
      intro h hh
      rw [List.mem_range] at hh
      have hwin : h * (nS * cb) + nS * cb ≤ nH * (nS * cb) := by
        calc h * (nS * cb) + nS * cb = (h + 1) * (nS * cb) := by ring
          _ ≤ nH * (nS * cb) := Nat.mul_le_mul_right _ (by omega)
      rw [slice_slice _ _ _ _ _ hwin]
      apply track_serialize _ hB
      · exact h4
      · have hcyl1 : c * (nH * (nS * cb)) + nH * (nS * cb) ≤ nC * (nH * (nS * cb)) := by
          calc c * (nH * (nS * cb)) + nH * (nS * cb) = (c + 1) * (nH * (nS * cb)) := by ring
            _ ≤ nC * (nH * (nS * cb)) := Nat.mul_le_mul_right _ (by omega)
        omega
    rw [List.flatMap_congr htrk]
    apply flatMap_range_chunks
    rw [List.length_take, List.length_drop]
    have hcyl1 : c * (nH * (nS * cb)) + nH * (nS * cb) ≤ nC * (nH * (nS * cb)) := by
      calc c * (nH * (nS * cb)) + nH * (nS * cb) = (c + 1) * (nH * (nS * cb)) := by ring
        _ ≤ nC * (nH * (nS * cb)) := Nat.mul_le_mul_right _ (by omega)
    omega
  rw [List.flatMap_congr hcyl]
  exact flatMap_range_chunks nC B2 (nH * (nS * cb)) hlen

/-! ### `buildDiskParams.bufferAfter`: length, byte bounds, confinement -/

theorem aDefaultBPBs_bytes_lt : ∀ l ∈ aDefaultBPBs, ∀ x ∈ l, x < 256 := by decide

theorem aDefaultBPBs_getD_bytes_lt (i : Nat) : ∀ x ∈ aDefaultBPBs.getD i [], x < 256 := by
  intro x hx
  by_cases h : i < aDefaultBPBs.length
  · rw [List.getD_eq_getElem _ _ h] at hx
    exact aDefaultBPBs_bytes_lt _ (List.getElem_mem h) x hx
  · rw [List.getD_eq_default _ _ (by omega)] at hx
    simp at hx

theorem repairBPB_length (B : List Nat) (off i : Nat) (c : Bool) (m : Nat) :
    (repairBPB B off i c m).length = B.length := by
  unfold repairBPB
  dsimp only
  repeat first
  | rw [writeBytes_length]
  | split
  all_goals rfl

theorem brandOEM_length (B1 : List Nat) (off : Nat) (f : Bool) :
    (brandOEM B1 off f).length = B1.length := by
  unfold brandOEM
  repeat first
  | rw [writeBytes_length]
  | split
  all_goals rfl

theorem repairBPB_jsGet_outside (B : List Nat) (off i : Nat) (c : Bool) (m j : Nat)
    (hj : j < off ∨ off + 0x24 ≤ j) :
    jsGet (repairBPB B off i c m) j = jsGet B j := by
  unfold repairBPB
  dsimp only
  repeat first
  | (rw [writeBytes_jsGet]
     rw [if_neg (by
       simp only [List.length_map, List.length_range]
       omega)])
  | split
  all_goals rfl

theorem brandOEM_jsGet_outside (B1 : List Nat) (off : Nat) (f : Bool) (j : Nat)
    (hj : j < off ∨ off + 0x24 ≤ j) :
    jsGet (brandOEM B1 off f) j = jsGet B1 j := by
  unfold brandOEM
  repeat first
  | (rw [writeBytes_jsGet]
     rw [if_neg (by
       simp only [List.length_cons, List.length_nil]
       omega)])
  | split
  all_goals rfl

theorem repairBPB_bytes_lt (B : List Nat) (off i : Nat) (c : Bool) (m : Nat)
    (hB : ∀ x ∈ B, x < 256) : ∀ x ∈ repairBPB B off i c m, x < 256 := by
  unfold repairBPB
  dsimp only
  repeat first
  | (apply writeBytes_bytes_lt _ _ _ hB (by
      intro x hx
      simp only [List.mem_map, List.mem_range] at hx
      obtain ⟨k, hk, rfl⟩ := hx
      exact jsGet_lt_of_forall_lt (aDefaultBPBs_getD_bytes_lt _) (by omega)))
  | split
  all_goals exact hB

theorem brandOEM_bytes_lt (B1 : List Nat) (off : Nat) (f : Bool)
    (hB : ∀ x ∈ B1, x < 256) : ∀ x ∈ brandOEM B1 off f, x < 256 := by
  unfold brandOEM
  repeat first
  | (apply writeBytes_bytes_lt _ _ _ hB (by decide))
  | split
  all_goals exact hB

/-- Repairing/branding the BPB never changes the buffer's length. -/
theorem bufferAfter_length (B : List Nat) :
    (buildDiskParams B).bufferAfter.length = B.length := by
  unfold buildDiskParams
  dsimp only
  rw [brandOEM_length, repairBPB_length]

/-- All BPB-repair and OEM writes land inside the window
`[offBootSector, offBootSector + 0x24)`. -/
theorem bufferAfter_jsGet_outside (B : List Nat) (j : Nat)
    (hj : j < offBootSectorOf B ∨ offBootSectorOf B + 0x24 ≤ j) :
    jsGet (buildDiskParams B).bufferAfter j = jsGet B j := by
  unfold buildDiskParams
  dsimp only
  rw [brandOEM_jsGet_outside _ _ _ _ hj, repairBPB_jsGet_outside _ _ _ _ _ _ hj]

/-- The repaired buffer still consists of bytes. -/
theorem bufferAfter_bytes_lt (B : List Nat) (hB : ∀ x ∈ B, x < 256) :
    ∀ x ∈ (buildDiskParams B).bufferAfter, x < 256 := by
  unfold buildDiskParams
  dsimp only
  exact brandOEM_bytes_lt _ _ _ (repairBPB_bytes_lt _ _ _ _ _ hB)

/-! ### Geometry-table facts -/

/-- Every geometry in the table has a nonzero head count, a word-aligned
sector size, and dimensions that tile its key length exactly. -/
theorem GEOMETRIES_facts (len : Nat) (g : Geometry) (hg : GEOMETRIES len = some g) :
    g.nH ≠ 0 ∧ 4 ∣ g.cb.getD 512 ∧ len = g.nC * (g.nH * (g.nS * g.cb.getD 512)) := by
  unfold GEOMETRIES at hg
  by_cases h1 : len = 163840
  · rw [if_pos h1] at hg
    injection hg with hge
    subst hge
    subst h1
    exact ⟨by decide, by decide, by decide⟩
  rw [if_neg h1] at hg
  by_cases h2 : len = 184320
  · rw [if_pos h2] at hg
    injection hg with hge
    subst hge
    subst h2
    exact ⟨by decide, by decide, by decide⟩
  rw [if_neg h2] at hg
  by_cases h3 : len = 327680
  · rw [if_pos h3] at hg
    injection hg with hge
    subst hge
    subst h3
    exact ⟨by decide, by decide, by decide⟩
  rw [if_neg h3] at hg
  by_cases h4 : len = 368640
  · rw [if_pos h4] at hg
    injection hg with hge
    subst hge
    subst h4
    exact ⟨by decide, by decide, by decide⟩
  rw [if_neg h4] at hg
  by_cases h5 : len = 737280
  · rw [if_pos h5] at hg
    injection hg with hge
    subst hge
    subst h5
    exact ⟨by decide, by decide, by decide⟩
  rw [if_neg h5] at hg
  by_cases h6 : len = 1228800
  · rw [if_pos h6] at hg
    injection hg with hge
    subst hge
    subst h6
    exact ⟨by decide, by decide, by decide⟩
  rw [if_neg h6] at hg
  by_cases h7 : len = 1474560
  · rw [if_pos h7] at hg
    injection hg with hge
    subst hge
    subst h7
    exact ⟨by decide, by decide, by decide⟩
  rw [if_neg h7] at hg
  by_cases h8 : len = 2949120
  · rw [if_pos h8] at hg
    injection hg with hge
    subst hge
    subst h8
    exact ⟨by decide, by decide, by decide⟩
  rw [if_neg h8] at hg
  by_cases h9 : len = 10653696
  · rw [if_pos h9] at hg
    injection hg with hge
    subst hge
    subst h9
    exact ⟨by decide, by decide, by decide⟩
  rw [if_neg h9] at hg
  by_cases h10 : len = 21411840
  · rw [if_pos h10] at hg
    injection hg with hge
    subst hge
    subst h10
    exact ⟨by decide, by decide, by decide⟩
  rw [if_neg h10] at hg
  by_cases h11 : len = 256256
  · rw [if_pos h11] at hg
    injection hg with hge
    subst hge
    subst h11
    exact ⟨by decide, by decide, by decide⟩
  rw [if_neg h11] at hg
  by_cases h12 : len = 2494464
  · rw [if_pos h12] at hg
    injection hg with hge
    subst hge
    subst h12
    exact ⟨by decide, by decide, by decide⟩
  rw [if_neg h12] at hg
  by_cases h13 : len = 5242880
  · rw [if_pos h13] at hg
    injection hg with hge
    subst hge
    subst h13
    exact ⟨by decide, by decide, by decide⟩
  rw [if_neg h13] at hg
  by_cases h14 : len = 10485760
  · rw [if_pos h14] at hg
    injection hg with hge
    subst hge
    subst h14
    exact ⟨by decide, by decide, by decide⟩
  rw [if_neg h14] at hg
  exact Option.noConfusion hg

/-- When the buffer length is in the geometry table, the physical build
parameters come straight from the table entry. -/
theorem buildDiskParams_of_geometry (B : List Nat) (g : Geometry)
    (hg : GEOMETRIES B.length = some g) :
    (buildDiskParams B).nCylinders = g.nC ∧ (buildDiskParams B).nHeads = g.nH ∧
    (buildDiskParams B).nSectorsPerTrack = g.nS ∧
    (buildDiskParams B).cbSector = g.cb.getD 512 := by
  unfold buildDiskParams
  dsimp only
  rw [hg]
  simp

/-! ### `getData` characterisation and the round trip -/

/-- `getData` on a state with saved BPB bytes: serialise, rewrite the 0x24
saved bytes at the saved offset, and shift the offset off `abOrigBPB`. -/
theorem getData_cons (st : DiskState) (off : Nat) (rest : List Nat)
    (h : st.abOrigBPB = off :: rest) :
    getData st = (writeBytes (serializeGrid st.aDiskData) off
        ((List.range 0x24).map (fun i => jsGet rest i)),
      { st with abOrigBPB := rest }) := by
  rcases st with ⟨grid, nC, nH, nS, cb, cbd, ck, ab, fb⟩
  dsimp only at h
  subst h
  rfl

/-- Every sector of the grid serialises to `cbSector` bytes, so the grid
serialises to `nCylinders · nHeads · nLogicalSectorsPerTrack · cbSector`
bytes regardless of the buffer it was built from. -/
theorem serializeGrid_buildDiskGrid_length (B2 : List Nat) (p : BuildParams) :
    (serializeGrid (buildDiskGrid B2 p)).length
    = p.nCylinders * (p.nHeads * (p.nLogicalSectorsPerTrack * p.cbSector)) := by
  unfold serializeGrid buildDiskGrid
  dsimp only
  rw [List.flatMap_map]
  rw [length_flatMap_const _ _ (p.nHeads * (p.nLogicalSectorsPerTrack * p.cbSector)) ?_]
  · rw [List.length_range]
  · intro c _
    rw [List.flatMap_map]
    rw [length_flatMap_const _ _ (p.nLogicalSectorsPerTrack * p.cbSector) ?_]
    · rw [List.length_range]
    · intro h _
      rw [List.flatMap_map]
      rw [length_flatMap_const _ _ p.cbSector ?_]
      · rw [List.length_range]
      · intro k _
        unfold sectorBytes
        rw [List.length_map, List.length_range, buildSector_l]

/-- Writing back the `0x24` bytes saved from `B` at offset `off` undoes all
modifications of a buffer that agrees with `B` outside the window. -/
theorem roundtrip_write_restore (B BA : List Nat) (off : Nat)
    (hlen : BA.length = B.length)
    (houtside : ∀ j, j < off ∨ off + 0x24 ≤ j → jsGet BA j = jsGet B j) :
    writeBytes BA off ((List.range 0x24).map (fun i => readUInt8 B (off + i))) = B := by
  have hSlen : ((List.range 0x24).map (fun i => readUInt8 B (off + i))).length = 0x24 := by
    rw [List.length_map, List.length_range]
  apply List.ext_getElem
  · rw [writeBytes_length, hlen]
  · intro j h1 h2
    have hout : jsGet (writeBytes BA off
        ((List.range 0x24).map (fun i => readUInt8 B (off + i)))) j = jsGet B j := by
      rw [writeBytes_jsGet]
      by_cases hw : off ≤ j ∧
          j < off + ((List.range 0x24).map (fun i => readUInt8 B (off + i))).length ∧
          j < BA.length
      · rw [if_pos hw]
        rw [List.getD_eq_getElem _ _ (by rw [hSlen]; omega)]
        simp only [List.getElem_map, List.getElem_range]
        unfold readUInt8
        congr 1
        omega
      · rw [if_neg hw]
        apply houtside
        rw [writeBytes_length] at h1
        omega
    rw [← jsGet_eq_getElem h1, ← jsGet_eq_getElem h2]
    exact hout

/-- The two structural fields of `buildDiskState` the round trip consumes. -/
theorem buildDiskState_fields (B : List Nat) :
    (buildDiskState B).aDiskData
      = buildDiskGrid (buildDiskParams B).bufferAfter (buildDiskParams B) ∧
    (buildDiskState B).abOrigBPB = abOrigBPBOf B ∧
    (buildDiskState B).fBPBModified = false :=
  ⟨rfl, rfl, rfl⟩

theorem jsGet_replicate (n v i : Nat) :
    jsGet (List.replicate n v) i = if i < n then v else 0 := by
  unfold jsGet
  by_cases h : i < n
  · rw [List.getD_eq_getElem _ _ (by rw [List.length_replicate]; exact h),
      List.getElem_replicate, if_pos h]
  · rw [List.getD_eq_default _ _ (by rw [List.length_replicate]; omega), if_neg h]

/-- **C1** (amended).  For every buffer `B` whose length is a standard
capacity in the geometry table, `buildDiskFromBuffer` succeeds without
touching `fBPBModified`, and serialising the disk back with `getData`
returns exactly `B` — provided the build did not shrink the image to a
smaller logical geometry (`nLogicalSectorsPerTrack = nSectorsPerTrack`,
which the original claim's "BPB was not modified" proviso does not imply;
see `claim_C1_counterexample`). -/
theorem claim_C1_roundtrip (B : List Nat) (g : Geometry)
    (hB : ∀ x ∈ B, x < 256)
    (hg : GEOMETRIES B.length = some g)
    (hns : (buildDiskParams B).nLogicalSectorsPerTrack
      = (buildDiskParams B).nSectorsPerTrack) :
    buildDiskFromBuffer B = some (buildDiskState B) ∧
    (buildDiskState B).fBPBModified = false ∧
    (getData (buildDiskState B)).1 = B := by
  obtain ⟨hnC, hnH, hnS, hcb⟩ := buildDiskParams_of_geometry B g hg
  obtain ⟨hH0, h4, hlen⟩ := GEOMETRIES_facts B.length g hg
  refine ⟨?_, rfl, ?_⟩
  · unfold buildDiskFromBuffer
    rw [if_pos (by rw [hnH]; exact hH0)]
  · have hser : serializeGrid
        (buildDiskGrid (buildDiskParams B).bufferAfter (buildDiskParams B))
        = (buildDiskParams B).bufferAfter := by
      apply serialize_buildDiskGrid _ _ g.nC g.nH g.nS (g.cb.getD 512) hnC hnH hnS
        (hns.trans hnS) hcb (bufferAfter_bytes_lt B hB) h4
      rw [bufferAfter_length]
      exact hlen
    rw [getData_cons (buildDiskState B) (offBootSectorOf B)
      ((List.range 0x24).map (fun i => readUInt8 B (offBootSectorOf B + i))) rfl]
    dsimp only
    rw [(buildDiskState_fields B).1, hser]
    have hmm : ((List.range 0x24).map (fun i =>
        jsGet ((List.range 0x24).map (fun k => readUInt8 B (offBootSectorOf B + k))) i))
        = (List.range 0x24).map (fun i => readUInt8 B (offBootSectorOf B + i)) := by
      apply List.map_congr_left
      intro i hi
      rw [List.mem_range] at hi
      have hil : i < ((List.range 0x24).map
          (fun k => readUInt8 B (offBootSectorOf B + k))).length := by
        rw [List.length_map, List.length_range]
        exact hi
      rw [jsGet_eq_getElem hil]
      simp only [List.getElem_map, List.getElem_range]
    rw [hmm]
    exact roundtrip_write_restore B _ (offBootSectorOf B) (bufferAfter_length B)
      (fun j hj => bufferAfter_jsGet_outside B j hj)

/-- On an all-zero 160KB image the build does not shrink, so the logical
and physical track sizes agree (used to discharge `claim_C1_roundtrip`'s
no-shrink hypothesis at a concrete input). -/
theorem replicate160_no_shrink :
    (buildDiskParams (List.replicate 163840 0)).nLogicalSectorsPerTrack
    = (buildDiskParams (List.replicate 163840 0)).nSectorsPerTrack := by
  have hoff : offBootSectorOf (List.replicate 163840 0) = 0 := by
    unfold offBootSectorOf
    rw [if_neg]
    rintro ⟨h3, _⟩
    rw [List.length_replicate] at h3
    omega
  unfold buildDiskParams
  dsimp only
  rw [hoff]
  simp only [List.length_replicate, readUInt8, readUInt16LE, Nat.zero_add, jsGet_replicate]
  decide

theorem claim_C1_roundtrip_witness :
    (∀ x ∈ List.replicate 163840 0, x < 256) ∧
    GEOMETRIES (List.replicate 163840 (0 : Nat)).length = some ⟨40, 1, 8, none, some 0xFE⟩ ∧
    (getData (buildDiskState (List.replicate 163840 0))).1 = List.replicate 163840 0 :=
  ⟨fun x hx => by rw [List.eq_of_mem_replicate hx]; omega,
   by rw [List.length_replicate]; rfl,
   (claim_C1_roundtrip (List.replicate 163840 0) ⟨40, 1, 8, none, some 0xFE⟩
     (fun x hx => by rw [List.eq_of_mem_replicate hx]; omega)
     (by rw [List.length_replicate]; rfl)
     replicate160_no_shrink).2.2⟩

/-- A physical 180KB image (geometry-table length 184320) that carries a
logical 160KB file system: media byte `0xFC` in the default 180KB BPB match
combined with FAT ID `0xFE` at offset 512 triggers the shrink-to-logical
path. -/
def shrinkCounterBuffer : List Nat :=
  List.replicate 512 0 ++ 0xFE :: List.replicate 183807 0

theorem shrinkCounterBuffer_length : shrinkCounterBuffer.length = 184320 := by
  unfold shrinkCounterBuffer
  rw [List.length_append, List.length_replicate, List.length_cons, List.length_replicate]

theorem shrinkCounterBuffer_jsGet (i : Nat) :
    jsGet shrinkCounterBuffer i = if i = 512 then 0xFE else 0 := by
  unfold shrinkCounterBuffer
  by_cases h1 : i < 512
  · show (List.replicate 512 0 ++ 0xFE :: List.replicate 183807 0).getD i 0 = _
    rw [List.getD_append _ _ _ _ (by rw [List.length_replicate]; exact h1)]
    show jsGet (List.replicate 512 0) i = _
    rw [jsGet_replicate, if_pos h1, if_neg (by omega)]
  · show (List.replicate 512 0 ++ 0xFE :: List.replicate 183807 0).getD i 0 = _
    rw [List.getD_append_right _ _ _ _ (by rw [List.length_replicate]; omega)]
    rw [List.length_replicate]
    by_cases h2 : i = 512
    · subst h2
      rw [Nat.sub_self, if_pos rfl]
      rfl
    · have hk : i - 512 = (i - 513) + 1 := by omega
      rw [hk, List.getD_cons_succ]
      have hrep : (List.replicate 183807 (0 : Nat)).getD (i - 513) 0 = 0 := by
        have hj := jsGet_replicate 183807 0 (i - 513)
        unfold jsGet at hj
        rw [hj]
        split
        · rfl
        · rfl
      rw [hrep, if_neg h2]

theorem shrinkCounterBuffer_offBoot : offBootSectorOf shrinkCounterBuffer = 0 := by
  unfold offBootSectorOf
  rw [if_neg]
  rintro ⟨h3, _⟩
  rw [shrinkCounterBuffer_length] at h3
  omega

/-- The 180KB-in-160KB image takes the shrink path: only 8 of the 9 physical
sectors per track survive into the grid. -/
theorem shrinkCounterBuffer_nLogical :
    (buildDiskParams shrinkCounterBuffer).nLogicalSectorsPerTrack = 8 := by
  unfold buildDiskParams
  dsimp only
  rw [shrinkCounterBuffer_offBoot]
  simp only [shrinkCounterBuffer_length, readUInt8, readUInt16LE, Nat.zero_add,
    shrinkCounterBuffer_jsGet]
  decide

/-- **C1, counterexample.**  `shrinkCounterBuffer` has a geometry-table
length and `fBPBModified` stays `false`, yet the round trip shrinks the
image: `getData` returns a 163840-byte buffer, not the original 184320-byte
one. -/
theorem claim_C1_counterexample :
    GEOMETRIES shrinkCounterBuffer.length = some ⟨40, 1, 9, none, some 0xFC⟩ ∧
    buildDiskFromBuffer shrinkCounterBuffer = some (buildDiskState shrinkCounterBuffer) ∧
    (buildDiskState shrinkCounterBuffer).fBPBModified = false ∧
    (getData (buildDiskState shrinkCounterBuffer)).1 ≠ shrinkCounterBuffer := by
  have hg : GEOMETRIES shrinkCounterBuffer.length = some ⟨40, 1, 9, none, some 0xFC⟩ := by
    rw [shrinkCounterBuffer_length]
    rfl
  obtain ⟨hnC, hnH, hnS, hcb⟩ := buildDiskParams_of_geometry shrinkCounterBuffer _ hg
  refine ⟨hg, ?_, rfl, ?_⟩
  · unfold buildDiskFromBuffer
    rw [if_pos (by rw [hnH]; decide)]
  · intro heq
    have hlen1 : (getData (buildDiskState shrinkCounterBuffer)).1.length = 163840 := by
      rw [getData_cons (buildDiskState shrinkCounterBuffer) (offBootSectorOf shrinkCounterBuffer)
        ((List.range 0x24).map
          (fun i => readUInt8 shrinkCounterBuffer (offBootSectorOf shrinkCounterBuffer + i))) rfl]
      dsimp only
      rw [writeBytes_length, (buildDiskState_fields shrinkCounterBuffer).1,
        serializeGrid_buildDiskGrid_length, shrinkCounterBuffer_nLogical, hnC, hnH, hcb]
      decide
    rw [heq, shrinkCounterBuffer_length] at hlen1
    omega

/-! ### The image-wide checksum -/

theorem foldl_add_mod_id (m : Nat) (hm : 0 < m) :
    ∀ (l : List Nat) (a : Nat), a < m →
    l.foldl (fun acc x => (acc + x) % m) a = (a + l.sum) % m := by
  intro l
  induction l with
  | nil =>
    intro a ha
    rw [List.foldl_nil, List.sum_nil, Nat.add_zero, Nat.mod_eq_of_lt ha]
  | cons x rest ih =>
    intro a ha
    rw [List.foldl_cons, ih _ (Nat.mod_lt _ hm), List.sum_cons, Nat.mod_add_mod, Nat.add_assoc]

theorem foldl_sector_checksum :
    ∀ (l : List Sector) (a : Nat), a < 2 ^ 32 →
    l.foldl (fun acc s => (acc + initSectorChecksum s.d s.l) % 2 ^ 32) a
    = (a + (l.map (fun s => initSectorChecksum s.d s.l)).sum) % 2 ^ 32 := by
  intro l
  induction l with
  | nil =>
    intro a ha
    rw [List.foldl_nil, List.map_nil, List.sum_nil, Nat.add_zero, Nat.mod_eq_of_lt ha]
  | cons x rest ih =>
    intro a ha
    rw [List.foldl_cons, ih _ (Nat.mod_lt _ (by positivity)), List.map_cons, List.sum_cons,
      Nat.mod_add_mod, Nat.add_assoc]

theorem sum_map_mod {α : Type} (m : Nat) (f : α → Nat) (l : List α) :
    (l.map (fun a => f a % m)).sum % m = (l.map f).sum % m := by
  induction l with
  | nil => rfl
  | cons a rest ih =>
    rw [List.map_cons, List.map_cons, List.sum_cons, List.sum_cons,
      Nat.add_mod (f a % m), Nat.add_mod (f a), ih,
      Nat.mod_mod_of_dvd _ dvd_rfl]

/-- The per-sector checksum: the wrapped sum of the stored words up to
`cdw`, which drops the final repeated pattern word exactly for sectors whose
stored array is shorter than `length/4`. -/
theorem initSectorChecksum_spec (s : Sector) :
    initSectorChecksum s.d s.l
    = (s.d.take (if s.d.length < s.l / 4 then s.d.length - 1 else s.d.length)).sum % 2 ^ 32 := by
  unfold initSectorChecksum
  dsimp only
  rw [foldl_add_mod_id _ (by positivity) _ 0 (by positivity), Nat.zero_add,
    Nat.shiftRight_eq_div_pow]

theorem diskChecksum_spec (grid : List (List (List Sector))) :
    diskChecksum grid =
      ((grid.flatMap (fun cyl => cyl.flatMap (fun trk => trk))).map
        (fun s => (s.d.take
          (if s.d.length < s.l / 4 then s.d.length - 1 else s.d.length)).sum)).sum % 2 ^ 32 := by
  unfold diskChecksum
  rw [foldl_sector_checksum _ 0 (by positivity), Nat.zero_add,
    List.map_congr_left (fun s _ => initSectorChecksum_spec s), sum_map_mod]

/-- **C5.**  After building a disk, the image checksum is the 32-bit
wrapping sum, over all sectors in build order, of the stored words
`[0, cdw)` with `cdw = data.length - 1` for a compressed less-than-full
sector (`data.length < length/4`) and `cdw = data.length` otherwise. -/
theorem claim_C5_checksum (B : List Nat) (st : DiskState)
    (h : buildDiskFromBuffer B = some st) :
    st.dwChecksum =
      ((st.aDiskData.flatMap (fun cyl => cyl.flatMap (fun trk => trk))).map
        (fun s => (s.d.take
          (if s.d.length < s.l / 4 then s.d.length - 1 else s.d.length)).sum)).sum % 2 ^ 32 := by
  unfold buildDiskFromBuffer at h
  by_cases hh : (buildDiskParams B).nHeads ≠ 0
  · rw [if_pos hh] at h
    injection h with h1
    subst h1
    have hck : (buildDiskState B).dwChecksum
        = diskChecksum (buildDiskGrid (buildDiskParams B).bufferAfter (buildDiskParams B)) := rfl
    rw [hck, (buildDiskState_fields B).1]
    exact diskChecksum_spec _
  · rw [if_neg hh] at h
    exact Option.noConfusion h

theorem claim_C5_checksum_witness :
    buildDiskFromBuffer (List.replicate 163840 0)
      = some (buildDiskState (List.replicate 163840 0)) ∧
    (buildDiskState (List.replicate 163840 0)).dwChecksum
      = (((buildDiskState (List.replicate 163840 0)).aDiskData.flatMap
          (fun cyl => cyl.flatMap (fun trk => trk))).map
            (fun s => (s.d.take
              (if s.d.length < s.l / 4 then s.d.length - 1 else s.d.length)).sum)).sum
        % 2 ^ 32 :=
  have hnH : (buildDiskParams (List.replicate 163840 0)).nHeads = 1 :=
    (buildDiskParams_of_geometry (List.replicate 163840 0) ⟨40, 1, 8, none, some 0xFE⟩
      (by rw [List.length_replicate]; rfl)).2.1
  have hbuild : buildDiskFromBuffer (List.replicate 163840 0)
      = some (buildDiskState (List.replicate 163840 0)) := by
    unfold buildDiskFromBuffer
    rw [if_pos (by rw [hnH]; decide)]
  ⟨hbuild, claim_C5_checksum _ _ hbuild⟩

/-! ### `getData` is destructive -/

/-- A one-sector disk state with saved original-BPB bytes, whose saved JMP
byte is 0 — so a second `getData` call would take 0 as its "offset". -/
def exampleDiskState : DiskState :=
  let B64 : List Nat := 0 :: 7 :: List.replicate 62 0
  { aDiskData := [[[buildSector 0 0 1 64 B64 0]]],
    nCylinders := 1, nHeads := 1, nSectors := 1, cbSector := 64,
    cbDiskData := 64, dwChecksum := 0,
    abOrigBPB := 0 :: (List.range 0x24).map (fun i => readUInt8 B64 i),
    fBPBModified := false }

/-- **C10.**  Each successful `getData` call shifts the leading
boot-sector-offset element off `abOrigBPB` (so the next call treats the
saved JMP-opcode byte as its write offset), and two consecutive `getData`
calls are not guaranteed to produce equal buffers: on `exampleDiskState`
they differ. -/
theorem claim_C10_getData_destructive :
    (∀ (st : DiskState) (off : Nat) (rest : List Nat), st.abOrigBPB = off :: rest →
      getData st = (writeBytes (serializeGrid st.aDiskData) off
          ((List.range 0x24).map (fun i => jsGet rest i)),
        { st with abOrigBPB := rest }) ∧
      (getData st).2.abOrigBPB = rest) ∧
    (getData (getData exampleDiskState).2).1 ≠ (getData exampleDiskState).1 := by
  refine ⟨fun st off rest h =>
    ⟨getData_cons st off rest h, by rw [getData_cons st off rest h]⟩, ?_⟩
  decide

theorem claim_C10_getData_destructive_witness :
    exampleDiskState.abOrigBPB
      = 0 :: (List.range 0x24).map (fun i => readUInt8 (0 :: 7 :: List.replicate 62 0) i) ∧
    (getData exampleDiskState).2.abOrigBPB
      = (List.range 0x24).map (fun i => readUInt8 (0 :: 7 :: List.replicate 62 0) i) :=
  ⟨rfl, (claim_C10_getData_destructive.1 exampleDiskState 0 _ rfl).2⟩

end DiskImage
